import Mathlib

/-!
# ducksoup: mixer slice, peer session and pipeline wrapper

A shallow embedding of `sfu/mixer_slice.go`, `sfu/peer_server.go`,
`gst/pipeline.go`, `types/shared.go` and of `filePrefixWithCount` of
`sfu/local_track.go`.

Conventions of the embedding

* Go structs become Lean structures with the same field names; a method
  `func (s *T) m(args)` becomes `T.m s args` returning the updated struct.
* A Go `map[string]V` is an association list with at most one entry per key
  (`mapSet`, `mapDelete`, `mapGet`); `len` is the length of the list.
* A pointer to a heap object (`*LinearInterpolator`) is the index of the object
  in an explicit heap list carried by the owning structure.
* A channel that is only ever closed (a latch) is a `Chan` counting its `close`
  operations; closing a closed channel is the Go run-time failure
  `close of closed channel`, modelled by `Except`.
* Calls into collaborators that are outside the embedded files (the pipeline,
  the peer connection, the websocket, the room) are recorded, in order, in a
  call log; values they return are inputs of the embedded function.
* `uint64` values are natural numbers (they are only compared here); `int` and
  `int64` values are integers wrapped with `wrapInt64` after each arithmetic
  operation.
* A goroutine started with `go` and a deferred function are run at the place
  where they are started, respectively at the return they are attached to; a
  blocking function is cut into the atomic steps between its blocking points.
-/

namespace Ducksoup

/-! ## Constants of `mixer_slice.go` -/

def defaultInterpolatorStep : Int := 30
def maxInterpolatorDuration : Int := 5000
def encoderPeriod : Int := 1000
def statsPeriod : Int := 3000
def logPeriod : Int := 7300

/-! ## Primitive models -/

/-- A Go `float32`, carried as its bit pattern: the embedded functions only
move such values around, they never compute with them. -/
structure Float32 where
  bits : Nat
deriving DecidableEq, Repr

/-- Two's complement wrap-around of a mathematical integer into `int64`
(also Go's `int` on 64-bit targets). -/
def wrapInt64 (x : Int) : Int :=
  (x + 2 ^ 63) % 2 ^ 64 - 2 ^ 63

/-- Two's complement wrap-around of a mathematical integer into the 32-bit
`C.int`. -/
def wrapInt32 (x : Int) : Int :=
  (x + 2 ^ 31) % 2 ^ 32 - 2 ^ 31

/-- A Go run-time failure (`panic`). -/
inductive Panic where
  | closeOfClosedChannel
  | nilDereference
  | integerDivideByZero
  | unhandledCodec (codec : String)
deriving DecidableEq, Repr

/-- Go's integer division `a / b` on `int64`: it fails on a zero divisor and
truncates toward zero otherwise. -/
def divInt64 (a b : Int) : Except Panic Int :=
  if b = 0 then Except.error Panic.integerDivideByZero
  else Except.ok (wrapInt64 (Int.tdiv a b))

/-- A channel used as a one-shot latch: `closes` counts the `close`
operations that succeeded on it. -/
structure Chan where
  closes : Nat
deriving DecidableEq, Repr

/-- The result of `make(chan struct{})`. -/
def Chan.make : Chan := ⟨0⟩

/-- Whether a receive on the latch is ready. -/
def Chan.isClosed (c : Chan) : Bool := decide (0 < c.closes)

/-- Go's `close(c)`: fails on a channel that is already closed. -/
def Chan.close (c : Chan) : Except Panic Chan :=
  if c.isClosed then Except.error Panic.closeOfClosedChannel
  else Except.ok ⟨c.closes + 1⟩

/-- A `time.Ticker`; `Stop` may be called any number of times. -/
structure Ticker where
  stopped : Bool
deriving DecidableEq, Repr

/-- The method `(*time.Ticker).Stop`. -/
def Ticker.Stop (_t : Ticker) : Ticker := ⟨true⟩

/-! ## Go maps as association lists -/

/-- The Go statement `m[k] = v`. -/
def mapSet {V : Type} (m : List (String × V)) (k : String) (v : V) : List (String × V) :=
  match m with
  | [] => [(k, v)]
  | (k', v') :: rest => if k' = k then (k, v) :: rest else (k', v') :: mapSet rest k v

/-- The Go statement `delete(m, k)`. -/
def mapDelete {V : Type} (m : List (String × V)) (k : String) : List (String × V) :=
  m.filter (fun e => e.1 ≠ k)

/-- The Go expression `m[k]`, `none` standing for the zero value `nil`. -/
def mapGet {V : Type} (m : List (String × V)) (k : String) : Option V :=
  match m with
  | [] => none
  | (k', v') :: rest => if k' = k then some v' else mapGet rest k

/-! ## The pipeline facade -/

/-- A call received by the pipeline of a slice. -/
inductive PipelineCall where
  | Stop
  | PushRTP (kind : String) (bytes : List UInt8)
  | SetEncodingRate (kind : String) (rate : Nat)
  | SetFxProp (kind name property : String) (value : Float32)
  | GetFxProp (kind name property : String)
deriving DecidableEq, Repr

/-- Modelled from the spec: the pipeline facade used by `mixerSlice`
(`Stop`, `SetEncodingRate(kind, rate)`, `SetFxProp(kind, name, property, value)`,
`GetFxProp(kind, name, property)`), whose implementation is not part of the
embedded files. The facade logs every call it receives (oldest first) and keeps
the last value set for each effect property; a property never set reads as
`unsetValue`. -/
structure Pipeline where
  calls : List PipelineCall
  fxProps : List (String × Float32)
  unsetValue : Float32
deriving DecidableEq, Repr

/-- The key under which the facade stores one effect property. -/
def Pipeline.propKey (kind name property : String) : String :=
  kind ++ "|" ++ name ++ "|" ++ property

def Pipeline.Stop (p : Pipeline) : Pipeline :=
  { p with calls := p.calls ++ [PipelineCall.Stop] }

def Pipeline.SetEncodingRate (p : Pipeline) (kind : String) (rate : Nat) : Pipeline :=
  { p with calls := p.calls ++ [PipelineCall.SetEncodingRate kind rate] }

def Pipeline.SetFxProp (p : Pipeline) (kind name property : String) (value : Float32) :
    Pipeline :=
  { p with
    calls := p.calls ++ [PipelineCall.SetFxProp kind name property value]
    fxProps := mapSet p.fxProps (Pipeline.propKey kind name property) value }

def Pipeline.GetFxProp (p : Pipeline) (kind name property : String) : Float32 × Pipeline :=
  ((mapGet p.fxProps (Pipeline.propKey kind name property)).getD p.unsetValue,
   { p with calls := p.calls ++ [PipelineCall.GetFxProp kind name property] })

/-! ## Sender controller and interpolator -/

/-- Modelled from the spec: the sender controller (`newSenderController` and
its type are not part of the embedded files). It wraps one outbound sender for
one subscriber and exposes `optimalBitrate`, refreshed by its listener. -/
structure senderController where
  sender : Nat
  toUserId : String
  optimalBitrate : Nat
  listening : Bool
deriving DecidableEq, Repr

/-- Modelled from the spec: `newSenderController(sender, slice, toUserId)`; the
initial estimate `initialBitrate` is the configured minimum. -/
def newSenderController (initialBitrate : Nat) (sender : Nat) (toUserId : String) :
    senderController :=
  { sender := sender, toUserId := toUserId, optimalBitrate := initialBitrate,
    listening := false }

/-- Modelled from the spec: `sequencing.LinearInterpolator`, as seen by
`controlFx`: the arguments of `NewLinearInterpolator(from, to, duration, step)`,
the stop latch set by `Stop()`, and whether the interpolator has sent its last
sample and closed its channel `C` by itself. -/
structure LinearInterpolator where
  origin : Float32
  target : Float32
  duration : Int
  step : Int
  stopped : Bool
  exhausted : Bool
deriving DecidableEq, Repr

/-- Modelled from the spec: `sequencing.NewLinearInterpolator`. -/
def NewLinearInterpolator (origin target : Float32) (duration step : Int) :
    LinearInterpolator :=
  { origin := origin, target := target, duration := duration, step := step,
    stopped := false, exhausted := false }

/-- The method `(*LinearInterpolator).Stop`. -/
def LinearInterpolator.Stop (i : LinearInterpolator) : LinearInterpolator :=
  { i with stopped := true }

/-- An interpolator is live while it is neither stopped nor exhausted. -/
def LinearInterpolator.live (i : LinearInterpolator) : Bool :=
  !i.stopped && !i.exhausted

/-- Modelled from the spec: the `control` payload
`{kind, name, property, value: float, duration: int-ms}`. -/
structure controlPayload where
  Kind : String
  Name : String
  Property : String
  Value : Float32
  Duration : Int
deriving DecidableEq, Repr

/-! ## `mixerSlice` -/

/-- The struct `mixerSlice`. `interpolators` is the heap of interpolators
created by `controlFx` calls on this slice (`interpolatorIndex` holds indices
into it); `roomEndCh` and `closedCh` are the latches `fromPs.r.endCh` and
`fromPs.closedCh`. `lastStats` is a time in nanoseconds. -/
structure mixerSlice where
  kind : String
  pipeline : Option Pipeline
  interpolatorIndex : List (String × Nat)
  senderControllerIndex : List (String × senderController)
  optimalBitrate : Nat
  encoderTicker : Ticker
  statsTicker : Ticker
  logTicker : Ticker
  lastStats : Int
  inputBits : Int
  outputBits : Int
  inputBitrate : Int
  outputBitrate : Int
  endCh : Chan
  interpolators : List LinearInterpolator
  roomEndCh : Chan
  closedCh : Chan
deriving DecidableEq, Repr

/-- The function `minUint64Slice`. -/
def minUint64Slice (v : List Nat) : Nat :=
  match v with
  | [] => 0
  | v0 :: rest => rest.foldl (fun min vi => if vi < min then vi else min) v0

/-- The rates gathered by `for _, sc := range s.senderControllerIndex`, when
the map is visited in the sequence `visit`. -/
def gatherRates (visit : List (String × senderController)) : List Nat :=
  visit.foldl (fun rates e => rates ++ [e.2.optimalBitrate]) []

/-- One iteration of the encoder goroutine of `runTickers` (the body of
`for range s.encoderTicker.C`). Go visits a map in an unspecified sequence:
`visit` is the sequence of entries of `senderControllerIndex` chosen for this
iteration. -/
def mixerSlice.encoderTick (s : mixerSlice) (visit : List (String × senderController)) :
    mixerSlice :=
  if s.senderControllerIndex.length > 0 then
    let rates := gatherRates visit
    let sliceRate := minUint64Slice rates
    match s.pipeline with
    | some p =>
      if sliceRate > 0 then
        { s with optimalBitrate := sliceRate,
                 pipeline := some (p.SetEncodingRate s.kind sliceRate) }
      else s
    | none => s
  else s

/-- An `*webrtc.RTPSender`, reduced to its identity and to the number of
entries of `GetParameters().Encodings`. -/
structure RTPSender where
  id : Nat
  encodings : Nat
deriving DecidableEq, Repr

/-- The method `mixerSlice.addSender`. The goroutine `go sc.runListener()` is
recorded by the flag `listening` of the new controller. -/
def mixerSlice.addSender (initialBitrate : Nat) (s : mixerSlice) (sender : RTPSender)
    (toUserId : String) : mixerSlice :=
  if sender.encodings = 1 then
    let sc := newSenderController initialBitrate sender.id toUserId
    let sc := { sc with listening := true }
    { s with senderControllerIndex := mapSet s.senderControllerIndex toUserId sc }
  else
    s

/-- An `rtp.Packet` after `Unmarshal`, reduced to the two sizes `Write` asks
for: `packet.Header.MarshalSize()` and `packet.MarshalSize()`. -/
structure Packet where
  headerMarshalSize : Int
  marshalSize : Int
deriving DecidableEq, Repr

/-- The method `mixerSlice.Write`. `unmarshal` is the packet left by
`packet.Unmarshal(buf)`, `WriteRTP` the answer of the output track (`none` is a
nil error). The counting goroutine is run before `Write` returns. -/
def mixerSlice.Write (unmarshal : List UInt8 → Packet) (WriteRTP : Packet → Option String)
    (s : mixerSlice) (buf : List UInt8) : mixerSlice × Option String :=
  let packet := unmarshal buf
  let err := WriteRTP packet
  if err = none then
    let outputBits := wrapInt64 (wrapInt64 (packet.marshalSize - packet.headerMarshalSize) * 8)
    ({ s with outputBits := wrapInt64 (s.outputBits + outputBits) }, err)
  else
    (s, err)

/-- The method `mixerSlice.stop`. A nil `pipeline` fails at `s.pipeline.Stop()`. -/
def mixerSlice.stop (s : mixerSlice) : Except Panic mixerSlice :=
  match s.pipeline with
  | none => Except.error Panic.nilDereference
  | some p =>
    let s := { s with pipeline := some p.Stop }
    let s := { s with statsTicker := s.statsTicker.Stop }
    let s := { s with encoderTicker := s.encoderTicker.Stop }
    let s := { s with logTicker := s.logTicker.Stop }
    match s.endCh.close with
    | Except.error e => Except.error e
    | Except.ok ch => Except.ok { s with endCh := ch }

/-! ## `mixerSlice.controlFx` -/

/-- Apply `f` to the heap object at address `ptr`. -/
def heapModify {α : Type} (h : List α) (ptr : Nat) (f : α → α) : List α :=
  match h, ptr with
  | [], _ => []
  | x :: xs, 0 => f x :: xs
  | x :: xs, n + 1 => x :: heapModify xs n f

/-- The local variables of a `controlFx` call that has reached its `select`
loop; `returned` is set once the call has returned. -/
structure controlFxCall where
  payload : controlPayload
  interpolatorId : String
  newInterpolator : Nat
  returned : Bool
deriving DecidableEq, Repr

/-- The method `mixerSlice.controlFx`, from its entry to its first blocking
point: the whole call when `payload.Duration == 0` (the result carries no
call frame), and up to the `select` loop otherwise (the result carries the
frame of the call, which goes on with `controlFxSelect`). -/
def mixerSlice.controlFx (s : mixerSlice) (payload : controlPayload) :
    Except Panic (mixerSlice × Option controlFxCall) :=
  let interpolatorId := payload.Kind ++ payload.Name ++ payload.Property
  let interpolator := mapGet s.interpolatorIndex interpolatorId
  let s :=
    match interpolator with
    | some ptr => { s with interpolators := heapModify s.interpolators ptr LinearInterpolator.Stop }
    | none => s
  let duration := payload.Duration
  if duration = 0 then
    match s.pipeline with
    | none => Except.error Panic.nilDereference
    | some p =>
      Except.ok
        ({ s with pipeline := some (p.SetFxProp s.kind payload.Name payload.Property payload.Value) },
         none)
  else
    let duration := if duration > maxInterpolatorDuration then maxInterpolatorDuration else duration
    match s.pipeline with
    | none => Except.error Panic.nilDereference
    | some p =>
      let (oldValue, p) := p.GetFxProp s.kind payload.Name payload.Property
      let newInterpolator :=
        NewLinearInterpolator oldValue payload.Value duration defaultInterpolatorStep
      let ptr := s.interpolators.length
      Except.ok
        ({ s with
           pipeline := some p
           interpolators := s.interpolators ++ [newInterpolator]
           interpolatorIndex := mapSet s.interpolatorIndex interpolatorId ptr },
         some { payload := payload, interpolatorId := interpolatorId,
                newInterpolator := ptr, returned := false })

/-- The case taken by one round of the `select` of `controlFx`. -/
inductive SelectCase where
  | roomEnd
  | peerClosed
  | value (currentValue : Float32)
  | channelClosed
deriving DecidableEq, Repr

/-- The deferred function of `controlFx`: `delete(s.interpolatorIndex, interpolatorId)`. -/
def mixerSlice.controlFxDeferred (s : mixerSlice) (call : controlFxCall) : mixerSlice :=
  { s with interpolatorIndex := mapDelete s.interpolatorIndex call.interpolatorId }

/-- One round of the `select` loop of a running `controlFx` call. The result is
`none` when the chosen case is not ready in `s`: the latch cases need their
latch closed, a value is received only from a live interpolator and the
channel `C` is seen closed only once the interpolator is stopped or
exhausted. The flag of the result tells whether the call has returned (its
deferred function has then run). -/
def mixerSlice.controlFxSelect (s : mixerSlice) (call : controlFxCall) (c : SelectCase) :
    Option (mixerSlice × Bool) :=
  match s.interpolators[call.newInterpolator]? with
  | none => none
  | some interpolator =>
    match c with
    | SelectCase.roomEnd =>
      if s.roomEndCh.isClosed then some (s.controlFxDeferred call, true) else none
    | SelectCase.peerClosed =>
      if s.closedCh.isClosed then some (s.controlFxDeferred call, true) else none
    | SelectCase.value currentValue =>
      if interpolator.live then
        match s.pipeline with
        | none => none
        | some p =>
          let p := p.SetFxProp s.kind call.payload.Name call.payload.Property currentValue
          some ({ s with pipeline := some p }, false)
      else none
    | SelectCase.channelClosed =>
      if interpolator.live then none else some (s.controlFxDeferred call, true)

/-- What can happen to the effect control of one slice. -/
inductive ControlEvent where
  | request (payload : controlPayload)
  | select (newInterpolator : Nat) (c : SelectCase)
  | exhaust (newInterpolator : Nat)
deriving DecidableEq, Repr

/-- A slice together with the frames of the `controlFx` calls that reached
their `select` loop on it, oldest first. -/
structure ControlRun where
  slice : mixerSlice
  calls : List controlFxCall
deriving DecidableEq, Repr

/-- One event on a slice: a new `controlFx` request, one `select` round of the
running call that owns interpolator `newInterpolator`, or interpolator
`newInterpolator` sending its last sample and closing its channel. The result
is `none` when the event cannot happen in this state. -/
def ControlRun.step (r : ControlRun) (e : ControlEvent) : Option ControlRun :=
  match e with
  | ControlEvent.request payload =>
    match r.slice.controlFx payload with
    | Except.error _ => none
    | Except.ok (s, none) => some { r with slice := s }
    | Except.ok (s, some call) => some { slice := s, calls := r.calls ++ [call] }
  | ControlEvent.select ptr c =>
    match r.calls.find? (fun call => call.newInterpolator = ptr && !call.returned) with
    | none => none
    | some call =>
      match r.slice.controlFxSelect call c with
      | none => none
      | some (s, ret) =>
        some { slice := s,
               calls := r.calls.map (fun k =>
                 if k.newInterpolator = ptr then { k with returned := ret } else k) }
  | ControlEvent.exhaust ptr =>
    match r.slice.interpolators[ptr]? with
    | none => none
    | some interpolator =>
      if interpolator.live then
        let heap := heapModify r.slice.interpolators ptr (fun i => { i with exhausted := true })
        some { r with slice := { r.slice with interpolators := heap } }
      else none

/-- Run a sequence of events. -/
def ControlRun.run (r : ControlRun) : List ControlEvent → Option ControlRun
  | [] => some r
  | e :: es =>
    match r.step e with
    | none => none
    | some r' => r'.run es

/-- The interpolators started under `key` that are live, by address. -/
def ControlRun.liveUnder (r : ControlRun) (key : String) : List Nat :=
  (r.calls.filter (fun call =>
      call.interpolatorId = key &&
      (match r.slice.interpolators[call.newInterpolator]? with
       | some i => i.live
       | none => false))).map (fun call => call.newInterpolator)

/-- A slice with the field values that `newMixerSlice` sets: empty maps,
running tickers, open latches, zero counters, `lastStats` at the current time. -/
def blankSlice (kind : String) (pipeline : Option Pipeline) (now : Int) : mixerSlice :=
  { kind := kind
    pipeline := pipeline
    interpolatorIndex := []
    senderControllerIndex := []
    optimalBitrate := 0
    encoderTicker := ⟨false⟩
    statsTicker := ⟨false⟩
    logTicker := ⟨false⟩
    lastStats := now
    inputBits := 0
    outputBits := 0
    inputBitrate := 0
    outputBitrate := 0
    endCh := Chan.make
    interpolators := []
    roomEndCh := Chan.make
    closedCh := Chan.make }

/-! ## `peerServer` -/

/-- Modelled from the spec: the websocket envelope `{kind, payload}` read by
`ws.ReadJSON(&m)`. -/
structure messageIn where
  Kind : String
  Payload : String
deriving DecidableEq, Repr

/-- A `webrtc.ICECandidateInit`, carried as the text it was decoded from. -/
structure ICECandidateInit where
  raw : String
deriving DecidableEq, Repr

/-- A `webrtc.SessionDescription`, carried as the text it was decoded from. -/
structure SessionDescription where
  raw : String
deriving DecidableEq, Repr

/-- A call made by a peer session to one of its collaborators: the room, the
peer connection `pc`, the websocket `ws`, or one of its two tracks. -/
inductive PeerCall where
  | roomConnectPeerServer
  | pcConnectPeerServer
  | roomDisconnectUser (userId : String)
  | pcClose
  | wsClose
  | pcAddICECandidate (candidate : ICECandidateInit)
  | pcSetRemoteDescription (answer : SessionDescription)
  | audioTrackControlFx (payload : controlPayload)
  | videoTrackControlFx (payload : controlPayload)
deriving DecidableEq, Repr

/-- The struct `peerServer`. `audioTrack` and `videoTrack` are `none` for a
nil pointer and the id of the track otherwise; `calls` is the log of the calls
the session made to its collaborators, oldest first. -/
structure peerServer where
  userId : String
  audioTrack : Option String
  videoTrack : Option String
  closed : Bool
  closedCh : Chan
  calls : List PeerCall
deriving DecidableEq, Repr

/-- The function `newPeerServer`, for the user id `join.UserId`. -/
def newPeerServer (userId : String) : peerServer :=
  { userId := userId
    audioTrack := none
    videoTrack := none
    closed := false
    closedCh := Chan.make
    calls := [PeerCall.roomConnectPeerServer, PeerCall.pcConnectPeerServer] }

/-- The method `peerServer.setLocalTrack`. -/
def peerServer.setLocalTrack (ps : peerServer) (kind : String) (outputTrack : Option String) :
    peerServer :=
  if kind = "audio" then { ps with audioTrack := outputTrack }
  else if kind = "video" then { ps with videoTrack := outputTrack }
  else ps

/-- The method `peerServer.close`; the session lock makes it one atomic step. -/
def peerServer.close (ps : peerServer) : Except Panic peerServer :=
  if !ps.closed then
    let ps := { ps with closed := true }
    match ps.closedCh.close with
    | Except.error e => Except.error e
    | Except.ok ch =>
      let ps := { ps with closedCh := ch }
      let ps := { ps with calls := ps.calls ++ [PeerCall.roomDisconnectUser ps.userId] }
      let ps := { ps with calls := ps.calls ++ [PeerCall.pcClose] }
      let ps := { ps with calls := ps.calls ++ [PeerCall.wsClose] }
      Except.ok ps
  else
    Except.ok ps

/-- Call `close` `n` times in a row. -/
def peerServer.closeTimes (ps : peerServer) : Nat → Except Panic peerServer
  | 0 => Except.ok ps
  | n + 1 =>
    match ps.close with
    | Except.error e => Except.error e
    | Except.ok ps' => ps'.closeTimes n

/-- The decoders `json.Unmarshal` applied by `loop` to the payload of a frame,
one for each target type; `Except.error` is a decoding error. -/
structure Decoders where
  candidate : String → Except String ICECandidateInit
  answer : String → Except String SessionDescription
  control : String → Except String controlPayload

/-- What one iteration of `loop` meets: whether `room.endCh` is closed when the
`select` runs, the outcome of `ps.ws.ReadJSON(&m)` (the message left in `m`, or
an error), and the error answered by the peer connection to the call made in
this iteration, if one is made (`none` is a nil error). -/
structure LoopInput where
  roomEnded : Bool
  read : Except String messageIn
  pcErr : Option String

/-- One iteration of the `for` of `peerServer.loop`. The flag of the result
tells whether `loop` has returned. The goroutine of the `control` case is run
where it is started. -/
def peerServer.loopIteration (d : Decoders) (ps : peerServer) (inp : LoopInput) :
    Except Panic (peerServer × Bool) :=
  if inp.roomEnded then
    match ps.close with
    | Except.error e => Except.error e
    | Except.ok ps => Except.ok (ps, true)
  else
    match inp.read with
    | Except.error _ =>
      match ps.close with
      | Except.error e => Except.error e
      | Except.ok ps => Except.ok (ps, true)
    | Except.ok m =>
      if m.Kind = "candidate" then
        match d.candidate m.Payload with
        | Except.error _ => Except.ok (ps, true)
        | Except.ok candidate =>
          let ps := { ps with calls := ps.calls ++ [PeerCall.pcAddICECandidate candidate] }
          match inp.pcErr with
          | some _ => Except.ok (ps, true)
          | none => Except.ok (ps, false)
      else if m.Kind = "answer" then
        match d.answer m.Payload with
        | Except.error _ => Except.ok (ps, true)
        | Except.ok answer =>
          let ps := { ps with calls := ps.calls ++ [PeerCall.pcSetRemoteDescription answer] }
          match inp.pcErr with
          | some _ => Except.ok (ps, true)
          | none => Except.ok (ps, false)
      else if m.Kind = "control" then
        match d.control m.Payload with
        | Except.error _ => Except.ok (ps, false)
        | Except.ok payload =>
          if payload.Kind = "audio" ∧ ps.audioTrack ≠ none then
            Except.ok
              ({ ps with calls := ps.calls ++ [PeerCall.audioTrackControlFx payload] }, false)
          else if ps.videoTrack ≠ none then
            Except.ok
              ({ ps with calls := ps.calls ++ [PeerCall.videoTrackControlFx payload] }, false)
          else
            Except.ok (ps, false)
      else
        Except.ok (ps, false)

/-- The method `peerServer.loop` run on the sequence of inputs its iterations
meet. The flag of the result tells whether `loop` has returned; it is `false`
when the inputs are used up with the loop still waiting. -/
def peerServer.loop (d : Decoders) (ps : peerServer) :
    List LoopInput → Except Panic (peerServer × Bool)
  | [] => Except.ok (ps, false)
  | inp :: rest =>
    match ps.loopIteration d inp with
    | Except.error e => Except.error e
    | Except.ok (ps', true) => Except.ok (ps', true)
    | Except.ok (ps', false) => ps'.loop d rest

/-! ## The telemetry tick of `runTickers` -/

/-- The value `int64(d.Seconds())` for a duration `d` in nanoseconds.
`Seconds()` is the `float64` sum of the whole seconds of `d` and of its
nanosecond remainder over `1e9`, and the conversion to `int64` truncates it
toward zero; for durations below `2 ^ 21` seconds the rounding of that sum
cannot reach the next whole number, so the result is the truncated quotient of
`d` by one second. -/
def wholeSeconds (d : Int) : Int :=
  Int.tdiv d 1000000000

/-- The method `Time.Sub`, on times in nanoseconds: the difference, kept
within the range of a `Duration`. -/
def timeSub (t u : Int) : Int :=
  if t - u < -(2 ^ 63) then -(2 ^ 63)
  else if 2 ^ 63 - 1 < t - u then 2 ^ 63 - 1
  else t - u

/-- One iteration of the stats goroutine of `runTickers` (the locked part of
the body of `for tickTime := range s.statsTicker.C`). -/
def mixerSlice.statsTick (s : mixerSlice) (tickTime : Int) : Except Panic mixerSlice :=
  let elapsed := wholeSeconds (timeSub tickTime s.lastStats)
  match divInt64 s.inputBits elapsed with
  | Except.error e => Except.error e
  | Except.ok inputBitrate =>
    match divInt64 s.outputBits elapsed with
    | Except.error e => Except.error e
    | Except.ok outputBitrate =>
      Except.ok
        { s with
          inputBitrate := inputBitrate
          outputBitrate := outputBitrate
          inputBits := 0
          outputBits := 0
          lastStats := tickTime }

/-! ## `types.JoinPayload` and `RunPeerServer` -/

/-- The struct `types.JoinPayload`. -/
structure JoinPayload where
  RoomId : String
  UserId : String
  Duration : Int
  Namespace : String
  VideoFormat : String
  RecordingMode : String
  Size : Int
  AudioFx : String
  VideoFx : String
  Width : Int
  Height : Int
  FrameRate : Int
  GPU : Bool
  Origin : String
deriving DecidableEq, Repr

/-- A call made by `RunPeerServer`, in the order of the source: `ws.readJoin`,
`ws.send`, `ws.setUserId`, `joinRoom`, `newPeerConn`, `newPeerServer`,
`ps.loop` and the deferred `ws.Close`. -/
inductive ServerCall where
  | readJoin (origin : String)
  | send (kind : String)
  | setUserId (userId : String)
  | joinRoom (join : JoinPayload)
  | newPeerConn (join : JoinPayload)
  | newPeerServer (join : JoinPayload)
  | loop
  | Close
deriving DecidableEq, Repr

/-- What `RunPeerServer` meets: the outcome of `ws.readJoin(origin)`, of
`joinRoom` (the error text is the reason) and of `newPeerConn`, and the inputs
of the iterations of the message loop. -/
structure StartupInput where
  readJoin : Except String JoinPayload
  joinRoom : Except String Unit
  newPeerConn : Except String Unit
  frames : List LoopInput

/-- The calls made by a run of `RunPeerServer`, oldest first, and the peer
server it created, if any, as its message loop left it. -/
structure ServerRun where
  calls : List ServerCall
  session : Option peerServer
deriving DecidableEq, Repr

/-- The function `RunPeerServer`. The deferred `ws.Close()` is logged when the
function returns; it has not returned when the inputs of the message loop are
used up with the loop still waiting. -/
def RunPeerServer (d : Decoders) (origin : String) (inp : StartupInput) :
    Except Panic ServerRun :=
  let calls := [ServerCall.readJoin origin]
  match inp.readJoin with
  | Except.error _ =>
    let calls := calls ++ [ServerCall.send "error-join"]
    Except.ok { calls := calls ++ [ServerCall.Close], session := none }
  | Except.ok joinPayload =>
    let userId := joinPayload.UserId
    let calls := calls ++ [ServerCall.setUserId userId]
    let calls := calls ++ [ServerCall.joinRoom joinPayload]
    match inp.joinRoom with
    | Except.error err =>
      let calls := calls ++ [ServerCall.send ("error-" ++ err)]
      Except.ok { calls := calls ++ [ServerCall.Close], session := none }
    | Except.ok _ =>
      let calls := calls ++ [ServerCall.newPeerConn joinPayload]
      match inp.newPeerConn with
      | Except.error _ =>
        let calls := calls ++ [ServerCall.send "error-peer-connection"]
        Except.ok { calls := calls ++ [ServerCall.Close], session := none }
      | Except.ok _ =>
        let calls := calls ++ [ServerCall.newPeerServer joinPayload]
        let ps := newPeerServer joinPayload.UserId
        let calls := calls ++ [ServerCall.loop]
        match ps.loop d inp.frames with
        | Except.error e => Except.error e
        | Except.ok (ps, true) =>
          Except.ok { calls := calls ++ [ServerCall.Close], session := some ps }
        | Except.ok (ps, false) =>
          Except.ok { calls := calls, session := some ps }

/-! ## Recording prefix (`local_track.go`) -/

/-- The function `filePrefixWithCount`. `now` is the text of
`time.Now().Format("20060102-150405.000")` and `connectionCount` the value of
`room.joinedCountForUser(join.UserId)`; `fmt.Sprint` of an integer is its
decimal text. -/
def filePrefixWithCount (now : String) (join : JoinPayload) (connectionCount : Int) : String :=
  now ++ "-r-" ++ join.RoomId ++ "-u-" ++ join.UserId ++ "-c-" ++ toString connectionCount

/-! ## Package `strings` -/

namespace strings

/-- Replace, from left to right, the first `n` non-overlapping occurrences of
the non-empty `old` by `new` in `s` (all of them when `n < 0`); `fuel` bounds
the number of positions of `s` that are looked at. -/
def replaceFuel (old new : List Char) : Nat → Int → List Char → List Char
  | 0, _, s => s
  | fuel + 1, n, s =>
    if n = 0 then s
    else if old.isPrefixOf s then
      new ++ replaceFuel old new fuel (n - 1) (s.drop old.length)
    else
      match s with
      | [] => []
      | c :: cs => c :: replaceFuel old new fuel n cs

/-- Go's `strings.Replace(s, old, new, n)` for a non-empty `old` (every call of
the embedded code passes a non-empty literal). -/
def Replace (s old new : String) (n : Int) : String :=
  ⟨replaceFuel old.data new.data (s.data.length + 1) n s.data⟩

end strings

/-! ## Package `gst` (`gst/pipeline.go`) -/

namespace gst

/-- The encoder and decoder descriptions of one engine (`engine.Encode.Fast`,
`engine.Encode.Relaxed`, `engine.Decode`). -/
structure EngineSettings where
  EncodeFast : String
  EncodeRelaxed : String
  Decode : String
deriving DecidableEq, Repr

/-- The package-level values read by `newPipelineStr` that are declared outside
`pipeline.go`: the pipeline templates, the settings (`settings.Common`,
`settings.Opus`, `settings.VP8`, `settings.NV264`, `settings.X264`) and the two
flags read from the environment by `init`. -/
structure Config where
  passthroughPipeline : String
  opusFxPipeline : String
  opusRawPipeline : String
  vp8FxPipeline : String
  vp8RawPipeline : String
  h264FxPipeline : String
  h264RawPipeline : String
  JitterBufferLatency : String
  Opus : EngineSettings
  VP8 : EngineSettings
  NV264 : EngineSettings
  X264 : EngineSettings
  nvidia : Bool
  forceEncodingSize : Bool
deriving DecidableEq, Repr

/-- The part of `newPipelineStr` under the comments `set encoding and decoding`
and `set file`. -/
def setEncodingAndFile (cfg : Config) (engine : EngineSettings) (nameSpace filePfx : String)
    (pipelineStr : String) : String :=
  let pipelineStr :=
    strings.Replace pipelineStr "$\x7bjitterBufferLatency\x7d" cfg.JitterBufferLatency (-1)
  let pipelineStr := strings.Replace pipelineStr "$\x7bencodeFast\x7d" engine.EncodeFast (-1)
  let pipelineStr := strings.Replace pipelineStr "$\x7bencode\x7d" engine.EncodeRelaxed (-1)
  let pipelineStr := strings.Replace pipelineStr "$\x7bdecode\x7d" engine.Decode (-1)
  let pipelineStr := strings.Replace pipelineStr "$\x7bnamespace\x7d" nameSpace (-1)
  strings.Replace pipelineStr "$\x7bprefix\x7d" filePfx (-1)

/-- The part of `newPipelineStr` under the comment `set fx`. -/
def setFx (hasFx : Bool) (fx : String) (pipelineStr : String) : String :=
  if hasFx then
    let prefixedFx := strings.Replace fx "name=" "name=fx" 1
    strings.Replace pipelineStr "$\x7bfx\x7d" prefixedFx (-1)
  else
    pipelineStr

/-- The part of `newPipelineStr` under the comment `set caps`. -/
def setCaps (cfg : Config) (width height frameRate : Int) (pipelineStr : String) : String :=
  if cfg.forceEncodingSize then
    let pipelineStr :=
      strings.Replace pipelineStr "$\x7bwidthCap\x7d" (", width=" ++ toString width) (-1)
    let pipelineStr :=
      strings.Replace pipelineStr "$\x7bheightCap\x7d" (", height=" ++ toString height) (-1)
    strings.Replace pipelineStr "$\x7bframerateCap\x7d"
      (", framerate=" ++ toString frameRate ++ "/1") (-1)
  else
    let pipelineStr := strings.Replace pipelineStr "$\x7bwidthCap\x7d" "" (-1)
    let pipelineStr := strings.Replace pipelineStr "$\x7bheightCap\x7d" "" (-1)
    strings.Replace pipelineStr "$\x7bframerateCap\x7d" "" (-1)

/-- The `switch codec` of `newPipelineStr`: the engine and the template. -/
def chooseTemplate (cfg : Config) (codec : String) (hasFx gpu : Bool) :
    Except Panic (EngineSettings × String) :=
  if codec = "opus" then
    Except.ok (cfg.Opus, if hasFx then cfg.opusFxPipeline else cfg.opusRawPipeline)
  else if codec = "VP8" then
    Except.ok (cfg.VP8, if hasFx then cfg.vp8FxPipeline else cfg.vp8RawPipeline)
  else if codec = "H264" then
    Except.ok (if cfg.nvidia && gpu then cfg.NV264 else cfg.X264,
               if hasFx then cfg.h264FxPipeline else cfg.h264RawPipeline)
  else
    Except.error (Panic.unhandledCodec codec)

/-- The function `newPipelineStr`. -/
def newPipelineStr (cfg : Config) (nameSpace filePfx _kind codec : String)
    (width height frameRate : Int) (fx : String) (gpu : Bool) : Except Panic String :=
  if fx = "passthrough" then
    Except.ok cfg.passthroughPipeline
  else
    let hasFx := decide (fx.length > 0)
    match chooseTemplate cfg codec hasFx gpu with
    | Except.error e => Except.error e
    | Except.ok (engine, pipelineStr) =>
      let pipelineStr := setEncodingAndFile cfg engine nameSpace filePfx pipelineStr
      let pipelineStr := setFx hasFx fx pipelineStr
      Except.ok (setCaps cfg width height frameRate pipelineStr)

/-- The function `fileName`. -/
def fileName (nameSpace pfx kind suffix : String) : String :=
  let ext := if kind = "audio" then ".ogg" else ".mkv"
  nameSpace ++ "/" ++ pfx ++ "-" ++ kind ++ "-" ++ suffix ++ ext

/-- The function `allFiles`. -/
def allFiles (nameSpace pfx kind : String) (hasFx : Bool) : List String :=
  if hasFx then
    [fileName nameSpace pfx kind "in", fileName nameSpace pfx kind "fx"]
  else
    [fileName nameSpace pfx kind "in"]

/-- A call made through cgo on the element `gstPipeline` of a pipeline. -/
inductive CCall where
  | gstreamer_start_pipeline
  | gstreamer_stop_pipeline
  | gstreamer_push_buffer (buffer : List UInt8)
  | gstreamer_set_property_int (name prop : String) (value : Int)
  | gstreamer_set_property_float (name prop : String) (value : Float32)
  | gstreamer_get_property_float (name prop : String)
deriving DecidableEq, Repr

/-- The struct `Pipeline`. `gstPipeline` is the element, carried as the
pipeline text it was parsed from; `track` is the output track, carried as its
id; `cCalls` is the log of the cgo calls made on `gstPipeline`, oldest first. -/
structure Pipeline where
  Files : List String
  id : String
  roomId : String
  userId : String
  gstPipeline : String
  track : String
  nameSpace : String
  filePfx : String
  codec : String
  gpu : Bool
  cCalls : List CCall
deriving DecidableEq, Repr

/-- The function `goStopCallback`, on the global `pipelineIndex`. -/
def goStopCallback (pipelineIndex : List (String × Pipeline)) (id : String) :
    List (String × Pipeline) :=
  mapDelete pipelineIndex id

/-- The function `goNewSampleCallback`, on the global `pipelineIndex`. The
result is the list of the writes made, each with the track written to and the
bytes; `writeErr` is the error answered by `track.Write` (it is only logged).
With no entry for `id` the variable `pipeline` is nil and the arguments
`pipeline.roomId`, `pipeline.userId` of the log call are read through it. -/
def goNewSampleCallback (pipelineIndex : List (String × Pipeline)) (id : String)
    (buffer : List UInt8) (_writeErr : Option String) :
    Except Panic (List (String × List UInt8)) :=
  match mapGet pipelineIndex id with
  | some pipeline => Except.ok [(pipeline.track, buffer)]
  | none => Except.error Panic.nilDereference

/-- The function `CreatePipeline`, on the global `pipelineIndex`; `track` is
the id of the output track. -/
def CreatePipeline (cfg : Config) (pipelineIndex : List (String × Pipeline))
    (roomId userId track nameSpace filePfx kind codec : String)
    (width height frameRate : Int) (fx : String) (gpu : Bool) :
    Except Panic (List (String × Pipeline) × Pipeline) :=
  match newPipelineStr cfg nameSpace filePfx kind codec width height frameRate fx gpu with
  | Except.error e => Except.error e
  | Except.ok pipelineStr =>
    let id := track
    let pipeline : Pipeline :=
      { Files := allFiles nameSpace filePfx kind (decide (fx.length > 0))
        id := id
        roomId := roomId
        userId := userId
        gstPipeline := pipelineStr
        track := track
        nameSpace := nameSpace
        filePfx := filePfx
        codec := codec
        gpu := gpu
        cCalls := [] }
    Except.ok (mapSet pipelineIndex pipeline.id pipeline, pipeline)

/-- The method `Pipeline.setPropertyInt`; the value is handed over as a 32-bit
`C.int`. -/
def Pipeline.setPropertyInt (p : Pipeline) (name prop : String) (value : Int) : Pipeline :=
  let cValue := wrapInt32 value
  { p with cCalls := p.cCalls ++ [CCall.gstreamer_set_property_int name prop cValue] }

/-- The method `Pipeline.setPropertyFloat`. -/
def Pipeline.setPropertyFloat (p : Pipeline) (name prop : String) (value : Float32) :
    Pipeline :=
  { p with cCalls := p.cCalls ++ [CCall.gstreamer_set_property_float name prop value] }

/-- The method `Pipeline.SetEncodingRate`; `value64` is a `uint64`. -/
def Pipeline.SetEncodingRate (p : Pipeline) (value64 : Nat) : Pipeline :=
  let value := wrapInt64 (value64 : Int)
  if p.codec = "VP8" then
    p.setPropertyInt "encoder" "target-bitrate" value
  else if p.codec = "H264" then
    let value := wrapInt64 (Int.tdiv value 1000)
    let p :=
      if p.gpu then
        p.setPropertyInt "encoder" "max-bitrate"
          (wrapInt64 (Int.tdiv (wrapInt64 (value * 320)) 256))
      else p
    p.setPropertyInt "encoder" "bitrate" value
  else
    p.setPropertyInt "encoder" "bitrate" value

/-- The method `Pipeline.SetFxProperty`. -/
def Pipeline.SetFxProperty (p : Pipeline) (name prop : String) (value : Float32) : Pipeline :=
  p.setPropertyFloat ("fx" ++ name) prop value

/-- The method `Pipeline.GetFxProperty`; `answer` is the value returned by
`gstreamer_get_property_float`. -/
def Pipeline.GetFxProperty (p : Pipeline) (name prop : String) (answer : Float32) :
    Float32 × Pipeline :=
  (answer,
   { p with cCalls := p.cCalls ++ [CCall.gstreamer_get_property_float ("fx" ++ name) prop] })

end gst

/-! ## Specification-side definitions -/

/-- The spec's `setFxProp(kind, name, prop, value)` alone: the single facade
call, on the pipeline of the slice, and nothing else. -/
def setFxPropAlone (s : mixerSlice) (kind name property : String) (value : Float32) :
    Except Panic mixerSlice :=
  match s.pipeline with
  | none => Except.error Panic.nilDereference
  | some p => Except.ok { s with pipeline := some (p.SetFxProp kind name property value) }

/-- The state of the close latch and of the call log agree with the `closed`
flag: an open session has never closed its latch nor called
`room.disconnectUser(userId)`, `pc.Close`, `ws.Close`; a closed session has
done each exactly once. Sessions start this way (`newPeerServer`) and every
step of the session keeps it so. -/
def peerServer.consistent (ps : peerServer) : Prop :=
  if ps.closed then
    ps.closedCh.closes = 1 ∧
    ps.calls.count (PeerCall.roomDisconnectUser ps.userId) = 1 ∧
    ps.calls.count PeerCall.pcClose = 1 ∧
    ps.calls.count PeerCall.wsClose = 1
  else
    ps.closedCh.closes = 0 ∧
    ps.calls.count (PeerCall.roomDisconnectUser ps.userId) = 0 ∧
    ps.calls.count PeerCall.pcClose = 0 ∧
    ps.calls.count PeerCall.wsClose = 0

/-- Whether the text `sub` occurs in the text `s`. -/
def occursIn (sub s : String) : Bool :=
  (List.range (s.data.length + 1)).any (fun k => sub.data.isPrefixOf (s.data.drop k))

/-- The text `old` occurs in `pre ++ old ++ post` at no position before the
end of `pre`. -/
def firstOccurrence (old pre post : String) : Prop :=
  ∀ k, k < pre.data.length →
    old.data.isPrefixOf ((pre.data ++ old.data ++ post.data).drop k) = false

/-! ## Sample values -/

/-- A pipeline that has received no call yet. -/
def freshPipeline : Pipeline :=
  { calls := [], fxProps := [], unsetValue := ⟨0⟩ }

/-- A video slice with two subscribers, estimated at 300 and 800 kbit/s. -/
def twoSubscribers : mixerSlice :=
  { blankSlice "video" (some freshPipeline) 0 with
    senderControllerIndex :=
      [("A", { sender := 1, toUserId := "A", optimalBitrate := 300000, listening := true }),
       ("B", { sender := 2, toUserId := "B", optimalBitrate := 800000, listening := true })] }

/-- An audio slice bound to a fresh pipeline, with no effect control yet. -/
def freshRun : ControlRun :=
  { slice := blankSlice "audio" (some freshPipeline) 0, calls := [] }

/-- A two-second ramp of the property `pitch` of the audio effect `shift`. -/
def pitchRamp : controlPayload :=
  { Kind := "audio", Name := "shift", Property := "pitch", Value := ⟨1⟩, Duration := 2000 }

/-- An immediate change of the same property. -/
def pitchJump : controlPayload :=
  { Kind := "audio", Name := "shift", Property := "pitch", Value := ⟨7⟩, Duration := 0 }

/-- A ramp requested over ten seconds. -/
def longRamp : controlPayload :=
  { Kind := "audio", Name := "shift", Property := "pitch", Value := ⟨1⟩, Duration := 10000 }

/-- A packet with the fixed 12-byte RTP header, as long as its buffer. -/
def plainPacket (buf : List UInt8) : Packet :=
  { headerMarshalSize := 12, marshalSize := buf.length }

/-- An output track that accepts every packet. -/
def acceptingTrack (_packet : Packet) : Option String := none

/-- An output track that rejects every packet. -/
def rejectingTrack (_packet : Packet) : Option String := some "io: read/write on closed pipe"

/-- A buffer of 20 bytes. -/
def twentyBytes : List UInt8 := List.replicate 20 0

/-- Decoders that reject the empty text and accept every other text; every
accepted control text decodes to `pitchJump`. -/
def sampleDecoders : Decoders :=
  { candidate := fun raw =>
      if raw = "" then Except.error "unexpected end of JSON input" else Except.ok ⟨raw⟩
    answer := fun raw =>
      if raw = "" then Except.error "unexpected end of JSON input" else Except.ok ⟨raw⟩
    control := fun raw =>
      if raw = "" then Except.error "unexpected end of JSON input" else Except.ok pitchJump }

/-- A join request of user `u1` for room `r1`. -/
def sampleJoin : JoinPayload :=
  { RoomId := "r1", UserId := "u1", Duration := 30, Namespace := "trial",
    VideoFormat := "VP8", RecordingMode := "muxed", Size := 2, AudioFx := "",
    VideoFx := "", Width := 800, Height := 600, FrameRate := 30, GPU := false,
    Origin := "https://example.org" }

/-- A video slice that has accumulated 2 999 000 bits in each direction since
time 0. -/
def busySlice : mixerSlice :=
  { blankSlice "video" (some freshPipeline) 0 with inputBits := 2999000, outputBits := 2999000 }

/-- A configuration with short templates: each template is a source, the
decoder, the effect (effect templates only), the encoder and a sink. -/
def sampleConfig : gst.Config :=
  { passthroughPipeline := "appsrc ! appsink"
    opusFxPipeline := "appsrc ! $\x7bdecode\x7d ! $\x7bfx\x7d ! $\x7bencode\x7d ! appsink"
    opusRawPipeline := "appsrc ! $\x7bdecode\x7d ! $\x7bencode\x7d ! appsink"
    vp8FxPipeline := "appsrc ! $\x7bdecode\x7d ! $\x7bfx\x7d ! $\x7bencode\x7d ! appsink"
    vp8RawPipeline := "appsrc ! $\x7bdecode\x7d ! $\x7bencode\x7d ! appsink"
    h264FxPipeline := "appsrc ! $\x7bdecode\x7d ! $\x7bfx\x7d ! $\x7bencode\x7d ! appsink"
    h264RawPipeline := "appsrc ! $\x7bdecode\x7d ! $\x7bencode\x7d ! appsink"
    JitterBufferLatency := "150"
    Opus := { EncodeFast := "opusenc", EncodeRelaxed := "opusenc", Decode := "opusdec" }
    VP8 := { EncodeFast := "vp8enc", EncodeRelaxed := "vp8enc", Decode := "vp8dec" }
    NV264 := { EncodeFast := "nvh264enc", EncodeRelaxed := "nvh264enc", Decode := "nvh264dec" }
    X264 := { EncodeFast := "x264enc", EncodeRelaxed := "x264enc", Decode := "avdec_h264" }
    nvidia := false
    forceEncodingSize := false }

/-- A pipeline of the given codec for output track `t1`, with no cgo call yet. -/
def samplePipeline (codec : String) (gpu : Bool) : gst.Pipeline :=
  { Files := [], id := "t1", roomId := "r1", userId := "u1", gstPipeline := "appsrc ! appsink",
    track := "t1", nameSpace := "trial", filePfx := "rec", codec := codec, gpu := gpu,
    cCalls := [] }

/-- A session that publishes video only. -/
def videoOnlySession : peerServer :=
  (newPeerServer "u1").setLocalTrack "video" (some "v1")

/-- A ramp of property `c` of the audio effect `ab`. -/
def rampAbC : controlPayload :=
  { Kind := "audio", Name := "ab", Property := "c", Value := ⟨1⟩, Duration := 2000 }

/-- A ramp of property `bc` of the audio effect `a`. -/
def rampABc : controlPayload :=
  { Kind := "audio", Name := "a", Property := "bc", Value := ⟨1⟩, Duration := 2000 }

/-! ## Lemmas on the helpers -/

theorem foldl_min_spec (rest : List Nat) (v0 : Nat) :
    (rest.foldl (fun min vi => if vi < min then vi else min) v0 = v0 ∨
      rest.foldl (fun min vi => if vi < min then vi else min) v0 ∈ rest) ∧
    rest.foldl (fun min vi => if vi < min then vi else min) v0 ≤ v0 ∧
    ∀ x ∈ rest, rest.foldl (fun min vi => if vi < min then vi else min) v0 ≤ x := by
  induction rest generalizing v0 with
  | nil => simp
  | cons y ys ih =>
    simp only [List.foldl_cons, List.mem_cons]
    obtain ⟨h1, h2, h3⟩ := ih (if y < v0 then y else v0)
    refine ⟨?_, ?_, ?_⟩
    · rcases h1 with h | h
      · by_cases hy : y < v0
        · simp only [hy, if_true] at h ⊢
          right; left; exact h
        · simp only [hy, if_false] at h ⊢
          left; exact h
      · right; right; exact h
    · by_cases hy : y < v0
      · simp only [hy, if_true] at h2 ⊢
        omega
      · simp only [hy, if_false] at h2 ⊢
        exact h2
    · intro x hx
      rcases hx with hx | hx
      · subst hx
        by_cases hy : x < v0
        · simp only [hy, if_true] at h2 ⊢
          exact h2
        · simp only [hy, if_false] at h2 ⊢
          omega
      · exact h3 x hx

theorem minUint64Slice_mem (v : List Nat) (hv : v ≠ []) : minUint64Slice v ∈ v := by
  cases v with
  | nil => exact absurd rfl hv
  | cons v0 rest =>
    simp only [minUint64Slice, List.mem_cons]
    exact (foldl_min_spec rest v0).1

theorem minUint64Slice_le (v : List Nat) : ∀ x ∈ v, minUint64Slice v ≤ x := by
  cases v with
  | nil => simp
  | cons v0 rest =>
    intro x hx
    simp only [minUint64Slice]
    rcases List.mem_cons.mp hx with hx | hx
    · subst hx
      exact (foldl_min_spec rest x).2.1
    · exact (foldl_min_spec rest v0).2.2 x hx

theorem minUint64Slice_perm (v w : List Nat) (h : v.Perm w) :
    minUint64Slice v = minUint64Slice w := by
  by_cases hv : v = []
  · subst hv
    rw [List.nil_perm.mp h]
  · have hw : w ≠ [] := fun hw => hv (by subst hw; exact List.perm_nil.mp h)
    have h1 := minUint64Slice_le w _ (h.subset (minUint64Slice_mem v hv))
    have h2 := minUint64Slice_le v _ (h.symm.subset (minUint64Slice_mem w hw))
    omega

theorem gatherRates_acc (visit : List (String × senderController)) (acc : List Nat) :
    visit.foldl (fun rates e => rates ++ [e.2.optimalBitrate]) acc =
      acc ++ visit.map (fun e => e.2.optimalBitrate) := by
  induction visit generalizing acc with
  | nil => simp
  | cons e es ih => simp [List.foldl_cons, ih]

theorem gatherRates_eq_map (visit : List (String × senderController)) :
    gatherRates visit = visit.map (fun e => e.2.optimalBitrate) := by
  simp [gatherRates, gatherRates_acc]

theorem mapGet_mapSet_same {V : Type} (m : List (String × V)) (k : String) (v : V) :
    mapGet (mapSet m k v) k = some v := by
  induction m with
  | nil => simp [mapSet, mapGet]
  | cons e es ih =>
    obtain ⟨k', v'⟩ := e
    by_cases h : k' = k
    · simp [mapSet, mapGet, h]
    · simp [mapSet, mapGet, h, ih]

theorem mapGet_mapSet_other {V : Type} (m : List (String × V)) (k j : String) (v : V)
    (hj : j ≠ k) : mapGet (mapSet m k v) j = mapGet m j := by
  induction m with
  | nil =>
    have : ¬ k = j := fun h => hj h.symm
    simp [mapSet, mapGet, this]
  | cons e es ih =>
    obtain ⟨k', v'⟩ := e
    by_cases h : k' = k
    · have h1 : ¬ k = j := fun h => hj h.symm
      have h2 : ¬ k' = j := fun h' => hj (h' ▸ h)
      simp [mapSet, mapGet, h, h1]
    · by_cases h' : k' = j
      · subst h'
        simp [mapSet, mapGet, hj]
      · simp [mapSet, mapGet, h, h', ih]

/-! ## Encoder retargeting -/

/-- C1: at an encoder tick, with `target` the minimum of the `optimalBitrate`
of the registered sender controllers (`minUint64Slice` returns, on every
non-empty list, an element of the list below all its elements, whatever the
sequence in which the map is visited): when the index is non-empty, a pipeline
is present and `target > 0`, the tick stores `target` as `optimalBitrate` and
the pipeline receives exactly one more call, `SetEncodingRate(kind, target)`;
when `target = 0` or the index is empty the slice, its pipeline included, is
unchanged. -/
theorem encoderTick_retargets (s : mixerSlice) (visit : List (String × senderController))
    (hvisit : visit.Perm s.senderControllerIndex) :
    (∀ v : List Nat, v ≠ [] → minUint64Slice v ∈ v ∧ ∀ x ∈ v, minUint64Slice v ≤ x) ∧
    minUint64Slice (gatherRates visit) =
      minUint64Slice (s.senderControllerIndex.map (fun e => e.2.optimalBitrate)) ∧
    (∀ p : Pipeline, s.senderControllerIndex ≠ [] → s.pipeline = some p →
      0 < minUint64Slice (s.senderControllerIndex.map (fun e => e.2.optimalBitrate)) →
      s.encoderTick visit =
        { s with
          optimalBitrate := minUint64Slice (s.senderControllerIndex.map (fun e => e.2.optimalBitrate))
          pipeline := some (p.SetEncodingRate s.kind
            (minUint64Slice (s.senderControllerIndex.map (fun e => e.2.optimalBitrate)))) } ∧
      (p.SetEncodingRate s.kind
          (minUint64Slice (s.senderControllerIndex.map (fun e => e.2.optimalBitrate)))).calls =
        p.calls ++ [PipelineCall.SetEncodingRate s.kind
          (minUint64Slice (s.senderControllerIndex.map (fun e => e.2.optimalBitrate)))]) ∧
    ((minUint64Slice (s.senderControllerIndex.map (fun e => e.2.optimalBitrate)) = 0 ∨
        s.senderControllerIndex = []) →
      s.encoderTick visit = s) := by
  have hmin : minUint64Slice (gatherRates visit) =
      minUint64Slice (s.senderControllerIndex.map (fun e => e.2.optimalBitrate)) := by
    rw [gatherRates_eq_map]
    exact minUint64Slice_perm _ _ (hvisit.map _)
  refine ⟨fun v hv => ⟨minUint64Slice_mem v hv, minUint64Slice_le v⟩, hmin, ?_, ?_⟩
  · intro p hne hp hpos
    have hlen : s.senderControllerIndex.length > 0 := List.length_pos.mpr hne
    refine ⟨?_, rfl⟩
    simp only [mixerSlice.encoderTick, hlen, if_true, hmin, hp, hpos]
  · intro h
    rcases h with h | h
    · unfold mixerSlice.encoderTick
      simp only [hmin, h]
      cases s.pipeline <;> simp
    · simp [mixerSlice.encoderTick, h]

/-- Witness of C1: subscriber A at 300 kbit/s and B at 800 kbit/s retarget the
encoder to 300 kbit/s. -/
theorem encoderTick_retargets_witness :
    (twoSubscribers.encoderTick twoSubscribers.senderControllerIndex).optimalBitrate = 300000 ∧
    (twoSubscribers.encoderTick twoSubscribers.senderControllerIndex).pipeline =
      some { freshPipeline with calls := [PipelineCall.SetEncodingRate "video" 300000] } := by
  have h := (encoderTick_retargets twoSubscribers twoSubscribers.senderControllerIndex
    (List.Perm.refl _)).2.2.1 freshPipeline (by decide) rfl (by decide)
  rw [h.1]
  exact ⟨by decide, by decide⟩

/-! ## Effect control -/

/-- C2 (evaluation of the code): on a fresh audio slice, three ramps are
requested for the same `(kind, name, property)`; the first call, preempted by
the second, returns between the second and the third request and its deferred
`delete` unregisters the key, which by then points to the second interpolator.
After the first call has returned, the second interpolator is live and the key
is not in `interpolatorIndex`; the third request therefore stops nothing, and
after it the interpolators 1 and 2 are both live under the same key. The same
happens when the first interpolator ends by itself and its call returns only
after the second request. -/
theorem controlFx_two_live_under_one_key :
    (freshRun.run
        [ControlEvent.request pitchRamp, ControlEvent.request pitchRamp,
         ControlEvent.select 0 SelectCase.channelClosed]).map
      (fun r => (r.liveUnder "audioshiftpitch",
                 mapGet r.slice.interpolatorIndex "audioshiftpitch")) = some ([1], none) ∧
    (freshRun.run
        [ControlEvent.request pitchRamp, ControlEvent.request pitchRamp,
         ControlEvent.select 0 SelectCase.channelClosed,
         ControlEvent.request pitchRamp]).map
      (fun r => (r.liveUnder "audioshiftpitch",
                 mapGet r.slice.interpolatorIndex "audioshiftpitch")) = some ([1, 2], some 2) ∧
    (freshRun.run
        [ControlEvent.request pitchRamp, ControlEvent.exhaust 0,
         ControlEvent.request pitchRamp,
         ControlEvent.select 0 SelectCase.channelClosed,
         ControlEvent.request pitchRamp]).map
      (fun r => (r.liveUnder "audioshiftpitch",
                 mapGet r.slice.interpolatorIndex "audioshiftpitch")) = some ([1, 2], some 2) := by
  refine ⟨?_, ?_, ?_⟩ <;> decide

/-- C3: for a slice with no interpolator registered under the key of the
payload, a payload of the kind of the slice and duration 0, `controlFx` is the
spec's `setFxProp(kind, name, property, value)` alone (it returns at once, with
no call frame left running); with a pipeline present the slice changes only by
its pipeline, which receives exactly one more call, `SetFxProp` with the name,
property and value of the payload (no `GetFxProp`), so that no interpolator is
created and `interpolatorIndex` is unchanged. -/
theorem controlFx_zero_duration (s : mixerSlice) (payload : controlPayload)
    (hkey : mapGet s.interpolatorIndex (payload.Kind ++ payload.Name ++ payload.Property) = none)
    (hkind : payload.Kind = s.kind) (hzero : payload.Duration = 0) :
    s.controlFx payload =
      (setFxPropAlone s payload.Kind payload.Name payload.Property payload.Value).map
        (fun s' => (s', none)) ∧
    ∀ p : Pipeline, s.pipeline = some p →
      s.controlFx payload =
        Except.ok
          ({ s with
             pipeline := some (p.SetFxProp payload.Kind payload.Name payload.Property payload.Value) },
           none) ∧
      (p.SetFxProp payload.Kind payload.Name payload.Property payload.Value).calls =
        p.calls ++
          [PipelineCall.SetFxProp payload.Kind payload.Name payload.Property payload.Value] := by
  constructor
  · simp only [mixerSlice.controlFx, hkey, hzero, if_true, setFxPropAlone]
    rw [hkind]
    cases s.pipeline <;> rfl
  · intro p hp
    refine ⟨?_, rfl⟩
    simp only [mixerSlice.controlFx, hkey, hzero, if_true, hp]
    rw [hkind]

/-- Witness of C3: an immediate change of `pitch` on a fresh audio slice. -/
theorem controlFx_zero_duration_witness :
    freshRun.slice.controlFx pitchJump =
      Except.ok
        ({ freshRun.slice with
           pipeline := some (freshPipeline.SetFxProp "audio" "shift" "pitch" ⟨7⟩) },
         none) :=
  ((controlFx_zero_duration freshRun.slice pitchJump (by decide) (by decide) (by decide)).2
    freshPipeline rfl).1

/-- C4: for a payload of duration `d ≠ 0`, on a slice with a pipeline,
`controlFx` reaches its `select` loop having made exactly one pipeline call,
`GetFxProp(kind, name, property)` (so the read precedes every `SetFxProp` of
the call), and having created and registered under the key of the payload an
interpolator whose origin is the value returned by that read, whose target is
`payload.Value`, whose step is 30 ms and whose duration is `d` when
`d ≤ 5000` and 5000 when `d > 5000`, hence never more than 5000 ms. -/
theorem controlFx_interpolator_arguments (s : mixerSlice) (payload : controlPayload)
    (p : Pipeline) (hp : s.pipeline = some p) (hd : payload.Duration ≠ 0) :
    ∃ (s' : mixerSlice) (call : controlFxCall) (i : LinearInterpolator),
      s.controlFx payload = Except.ok (s', some call) ∧
      s'.pipeline = some (p.GetFxProp s.kind payload.Name payload.Property).2 ∧
      (p.GetFxProp s.kind payload.Name payload.Property).2.calls =
        p.calls ++ [PipelineCall.GetFxProp s.kind payload.Name payload.Property] ∧
      call.interpolatorId = payload.Kind ++ payload.Name ++ payload.Property ∧
      mapGet s'.interpolatorIndex call.interpolatorId = some call.newInterpolator ∧
      s.interpolators.length ≤ call.newInterpolator ∧
      s'.interpolators[call.newInterpolator]? = some i ∧
      i.origin = (p.GetFxProp s.kind payload.Name payload.Property).1 ∧
      i.target = payload.Value ∧
      i.step = 30 ∧
      (payload.Duration ≤ 5000 → i.duration = payload.Duration) ∧
      (payload.Duration > 5000 → i.duration = 5000) ∧
      i.duration ≤ 5000 ∧
      i.live = true := by
  have hlen : ∀ (h : List LinearInterpolator) (ptr : Nat),
      (heapModify h ptr LinearInterpolator.Stop).length = h.length := by
    intro h
    induction h with
    | nil => intro ptr; simp [heapModify]
    | cons x xs ih =>
      intro ptr
      cases ptr with
      | zero => simp [heapModify]
      | succ n => simp [heapModify, ih]
  cases hidx : mapGet s.interpolatorIndex (payload.Kind ++ payload.Name ++ payload.Property) with
  | none =>
    generalize hres : s.controlFx payload = r
    simp only [mixerSlice.controlFx, hidx, hd, if_false, hp, Pipeline.GetFxProp] at hres
    subst hres
    refine ⟨_, _, NewLinearInterpolator (p.GetFxProp s.kind payload.Name payload.Property).1
      payload.Value (if payload.Duration > maxInterpolatorDuration then maxInterpolatorDuration
        else payload.Duration) defaultInterpolatorStep, rfl, ?_⟩
    · refine ⟨rfl, rfl, rfl, mapGet_mapSet_same _ _ _, le_refl _, ?_, rfl, rfl, rfl, ?_, ?_, ?_, rfl⟩
      · simp [Pipeline.GetFxProp]
      · intro h
        simp only [NewLinearInterpolator, maxInterpolatorDuration]
        rw [if_neg (by omega)]
      · intro h
        simp only [NewLinearInterpolator, maxInterpolatorDuration]
        rw [if_pos h]
      · simp only [NewLinearInterpolator, maxInterpolatorDuration]
        split <;> omega
  | some ptr =>
    generalize hres : s.controlFx payload = r
    simp only [mixerSlice.controlFx, hidx, hd, if_false, hp, Pipeline.GetFxProp] at hres
    subst hres
    refine ⟨_, _, NewLinearInterpolator (p.GetFxProp s.kind payload.Name payload.Property).1
      payload.Value (if payload.Duration > maxInterpolatorDuration then maxInterpolatorDuration
        else payload.Duration) defaultInterpolatorStep, rfl, ?_⟩
    · refine ⟨rfl, rfl, rfl, mapGet_mapSet_same _ _ _, ?_, ?_, rfl, rfl, rfl, ?_, ?_, ?_, rfl⟩
      · simp [hlen]
      · simp [Pipeline.GetFxProp]
      · intro h
        simp only [NewLinearInterpolator, maxInterpolatorDuration]
        rw [if_neg (by omega)]
      · intro h
        simp only [NewLinearInterpolator, maxInterpolatorDuration]
        rw [if_pos h]
      · simp only [NewLinearInterpolator, maxInterpolatorDuration]
        split <;> omega

/-- Witness of C4: a ramp requested over ten seconds on a fresh audio slice
is handed to its interpolator with a duration of at most 5000 ms. -/
theorem controlFx_interpolator_arguments_witness :
    ∃ (s' : mixerSlice) (call : controlFxCall) (i : LinearInterpolator),
      freshRun.slice.controlFx longRamp = Except.ok (s', some call) ∧
      s'.interpolators[call.newInterpolator]? = some i ∧ i.duration ≤ 5000 := by
  obtain ⟨s', call, i, h1, _, _, _, _, _, h7, _, _, _, _, _, h13, _⟩ :=
    controlFx_interpolator_arguments freshRun.slice longRamp freshPipeline rfl (by decide)
  exact ⟨s', call, i, h1, h7, h13⟩

/-! ## `Write`, `addSender`, `stop` -/

theorem wrapInt64_of_inRange (x : Int) (h1 : -(2 ^ 63) ≤ x) (h2 : x < 2 ^ 63) :
    wrapInt64 x = x := by
  unfold wrapInt64
  omega

/-- C5: `Write` returns exactly what `WriteRTP` answers for the packet parsed
from the buffer; it never touches `endCh`, the pipeline or the tickers; when
`WriteRTP` fails the slice is unchanged; when it succeeds the only field that
changes is `outputBits`, increased (in `int64` arithmetic) by
`8 * (MarshalSize - Header.MarshalSize)`, which is the exact sum whenever the
payload size and the counter are not negative and the sum is within `int64`. -/
theorem Write_forwards_and_counts (unmarshal : List UInt8 → Packet)
    (WriteRTP : Packet → Option String) (s : mixerSlice) (buf : List UInt8) :
    (s.Write unmarshal WriteRTP buf).2 = WriteRTP (unmarshal buf) ∧
    (s.Write unmarshal WriteRTP buf).1.endCh = s.endCh ∧
    (s.Write unmarshal WriteRTP buf).1.pipeline = s.pipeline ∧
    (s.Write unmarshal WriteRTP buf).1.encoderTicker = s.encoderTicker ∧
    (s.Write unmarshal WriteRTP buf).1.statsTicker = s.statsTicker ∧
    (s.Write unmarshal WriteRTP buf).1.logTicker = s.logTicker ∧
    (WriteRTP (unmarshal buf) ≠ none → (s.Write unmarshal WriteRTP buf).1 = s) ∧
    (WriteRTP (unmarshal buf) = none →
      (s.Write unmarshal WriteRTP buf).1 =
        { s with outputBits := wrapInt64 (s.outputBits +
            wrapInt64 (wrapInt64 ((unmarshal buf).marshalSize - (unmarshal buf).headerMarshalSize)
              * 8)) } ∧
      (0 ≤ (unmarshal buf).marshalSize - (unmarshal buf).headerMarshalSize →
        0 ≤ s.outputBits →
        s.outputBits +
          8 * ((unmarshal buf).marshalSize - (unmarshal buf).headerMarshalSize) < 2 ^ 63 →
        (s.Write unmarshal WriteRTP buf).1.outputBits =
          s.outputBits +
            8 * ((unmarshal buf).marshalSize - (unmarshal buf).headerMarshalSize))) := by
  by_cases h : WriteRTP (unmarshal buf) = none
  · simp only [mixerSlice.Write, h, if_true, ne_eq, not_true_eq_false, true_implies,
      false_implies, true_and, and_true]
    intro h0 h1 h2
    rw [wrapInt64_of_inRange ((unmarshal buf).marshalSize - (unmarshal buf).headerMarshalSize)
      (by omega) (by omega)]
    rw [wrapInt64_of_inRange (((unmarshal buf).marshalSize - (unmarshal buf).headerMarshalSize) * 8)
      (by omega) (by omega)]
    rw [wrapInt64_of_inRange _ (by omega) (by omega)]
    omega
  · simp [mixerSlice.Write, h]

/-- Witness of C5: a 20-byte packet with a 12-byte header, accepted by the
track, adds 64 bits to `outputBits`. -/
theorem Write_forwards_and_counts_witness :
    (freshRun.slice.Write plainPacket acceptingTrack twentyBytes).2 = none ∧
    (freshRun.slice.Write plainPacket acceptingTrack twentyBytes).1.outputBits = 64 := by
  have h := Write_forwards_and_counts plainPacket acceptingTrack freshRun.slice twentyBytes
  refine ⟨h.1, ?_⟩
  have h' := (h.2.2.2.2.2.2.2 rfl).2 (by decide) (by decide) (by decide)
  rw [h']
  decide

/-- C6: when the sender has exactly one encoding, `addSender` changes only
`senderControllerIndex`, which afterwards maps the subscriber's user id to a
new sender controller for that sender (its listener started) and maps every
other user id as before; when the number of encodings is not 1, the slice is
left exactly as it was (no controller, no listener). -/
theorem addSender_registers (initialBitrate : Nat) (s : mixerSlice) (sender : RTPSender)
    (toUserId : String) :
    (sender.encodings = 1 →
      s.addSender initialBitrate sender toUserId =
        { s with senderControllerIndex :=
            (s.addSender initialBitrate sender toUserId).senderControllerIndex } ∧
      mapGet (s.addSender initialBitrate sender toUserId).senderControllerIndex toUserId =
        some { newSenderController initialBitrate sender.id toUserId with listening := true } ∧
      (newSenderController initialBitrate sender.id toUserId).sender = sender.id ∧
      ∀ other : String, other ≠ toUserId →
        mapGet (s.addSender initialBitrate sender toUserId).senderControllerIndex other =
          mapGet s.senderControllerIndex other) ∧
    (sender.encodings ≠ 1 → s.addSender initialBitrate sender toUserId = s) := by
  constructor
  · intro h
    simp only [mixerSlice.addSender, h, if_true]
    exact ⟨trivial, mapGet_mapSet_same _ _ _, rfl,
      fun other ho => mapGet_mapSet_other _ _ _ _ ho⟩
  · intro h
    simp [mixerSlice.addSender, h]

/-- Witness of C6: a third subscriber with one encoding is registered next to
the two present ones. -/
theorem addSender_registers_witness :
    mapGet (twoSubscribers.addSender 100000 ⟨3, 1⟩ "C").senderControllerIndex "C" =
      some { sender := 3, toUserId := "C", optimalBitrate := 100000, listening := true } ∧
    twoSubscribers.addSender 100000 ⟨3, 2⟩ "C" = twoSubscribers :=
  ⟨((addSender_registers 100000 twoSubscribers ⟨3, 1⟩ "C").1 rfl).2.1,
   (addSender_registers 100000 twoSubscribers ⟨3, 2⟩ "C").2 (by decide)⟩

/-- C7 as stated fails: on a new slice the first `stop()` succeeds and the
second one fails with `close of closed channel`. -/
theorem stop_twice_fails :
    (blankSlice "audio" (some freshPipeline) 0).stop =
      Except.ok
        { blankSlice "audio" (some freshPipeline) 0 with
          pipeline := some { freshPipeline with calls := [PipelineCall.Stop] }
          statsTicker := ⟨true⟩
          encoderTicker := ⟨true⟩
          logTicker := ⟨true⟩
          endCh := ⟨1⟩ } ∧
    ((blankSlice "audio" (some freshPipeline) 0).stop.bind mixerSlice.stop) =
      Except.error Panic.closeOfClosedChannel := by
  constructor <;> rfl

/-- C7 amended: for every slice with a pipeline whose `endCh` has not been
closed, `stop()` succeeds and leaves the pipeline stopped (one `Stop` call),
the three tickers stopped and `endCh` closed exactly once, all other fields
unchanged; a `stop()` on the slice so obtained does not succeed: it fails
closing the closed `endCh`. -/
theorem stop_once (s : mixerSlice) (p : Pipeline) (hp : s.pipeline = some p)
    (hopen : s.endCh.closes = 0) :
    s.stop =
      Except.ok
        { s with
          pipeline := some p.Stop
          statsTicker := ⟨true⟩
          encoderTicker := ⟨true⟩
          logTicker := ⟨true⟩
          endCh := ⟨1⟩ } ∧
    p.Stop.calls = p.calls ++ [PipelineCall.Stop] ∧
    ∀ s1 : mixerSlice, s.stop = Except.ok s1 →
      s1.endCh.closes = 1 ∧ s1.stop = Except.error Panic.closeOfClosedChannel := by
  have h1 : s.stop =
      Except.ok
        { s with
          pipeline := some p.Stop
          statsTicker := ⟨true⟩
          encoderTicker := ⟨true⟩
          logTicker := ⟨true⟩
          endCh := ⟨1⟩ } := by
    simp [mixerSlice.stop, hp, Chan.close, Chan.isClosed, hopen, Ticker.Stop]
  refine ⟨h1, rfl, ?_⟩
  intro s1 hs1
  rw [h1] at hs1
  injection hs1 with hs1
  subst hs1
  exact ⟨rfl, by simp [mixerSlice.stop, Chan.close, Chan.isClosed]⟩

/-- Witness of C7 amended, on a new audio slice. -/
theorem stop_once_witness :
    (blankSlice "audio" (some freshPipeline) 0).stop =
      Except.ok
        { blankSlice "audio" (some freshPipeline) 0 with
          pipeline := some freshPipeline.Stop
          statsTicker := ⟨true⟩
          encoderTicker := ⟨true⟩
          logTicker := ⟨true⟩
          endCh := ⟨1⟩ } :=
  (stop_once (blankSlice "audio" (some freshPipeline) 0) freshPipeline rfl rfl).1

/-! ## Peer session -/

theorem close_of_closed (ps : peerServer) (h : ps.closed = true) : ps.close = Except.ok ps := by
  simp [peerServer.close, h]

theorem closeTimes_of_closed (ps : peerServer) (h : ps.closed = true) (n : Nat) :
    ps.closeTimes n = Except.ok ps := by
  induction n with
  | zero => rfl
  | succ n ih => simp [peerServer.closeTimes, close_of_closed ps h, ih]

theorem newPeerServer_consistent (userId : String) : (newPeerServer userId).consistent := by
  simp [peerServer.consistent, newPeerServer, Chan.make]

theorem close_open (ps : peerServer) (hopen : ps.closed = false)
    (hch : ps.closedCh.closes = 0) :
    ps.close =
      Except.ok
        { ps with
          closed := true
          closedCh := ⟨1⟩
          calls := ps.calls ++
            [PeerCall.roomDisconnectUser ps.userId, PeerCall.pcClose, PeerCall.wsClose] } := by
  simp [peerServer.close, hopen, Chan.close, Chan.isClosed, hch]

theorem close_consistent (ps ps' : peerServer) (hc : ps.consistent)
    (h : ps.close = Except.ok ps') : ps'.consistent := by
  cases hcl : ps.closed with
  | true =>
    rw [close_of_closed ps hcl] at h
    injection h with h
    subst h
    exact hc
  | false =>
    simp only [peerServer.consistent, hcl, Bool.false_eq_true, if_false] at hc
    rw [close_open ps hcl hc.1] at h
    injection h with h
    subst h
    simp [peerServer.consistent, List.count_append, hc.2.1, hc.2.2.1, hc.2.2.2]

theorem setLocalTrack_consistent (ps : peerServer) (kind : String) (t : Option String)
    (hc : ps.consistent) : (ps.setLocalTrack kind t).consistent := by
  unfold peerServer.setLocalTrack
  split
  · exact hc
  · split <;> exact hc

theorem loopIteration_consistent (d : Decoders) (ps ps' : peerServer) (inp : LoopInput)
    (ret : Bool) (hc : ps.consistent) (h : ps.loopIteration d inp = Except.ok (ps', ret)) :
    ps'.consistent := by
  have hlog : ∀ c : PeerCall, c ≠ PeerCall.roomDisconnectUser ps.userId →
      c ≠ PeerCall.pcClose → c ≠ PeerCall.wsClose →
      ({ ps with calls := ps.calls ++ [c] } : peerServer).consistent := by
    intro c h1 h2 h3
    have e1 : (c == PeerCall.roomDisconnectUser ps.userId) = false := by simpa using h1
    have e2 : (c == PeerCall.pcClose) = false := by simpa using h2
    have e3 : (c == PeerCall.wsClose) = false := by simpa using h3
    simpa [peerServer.consistent, List.count_append, List.count_cons, e1, e2, e3] using hc
  have hclose : ∀ r : Except Panic peerServer,
      ps.close = r →
      (match r with
        | Except.error e => (Except.error e : Except Panic (peerServer × Bool))
        | Except.ok q => Except.ok (q, true)) = Except.ok (ps', ret) → ps'.consistent := by
    intro r hr hm
    cases r with
    | error e => simp at hm
    | ok q =>
      simp only [Except.ok.injEq, Prod.mk.injEq] at hm
      obtain ⟨hq, _⟩ := hm
      subst hq
      exact close_consistent ps q hc hr
  unfold peerServer.loopIteration at h
  split at h
  · exact hclose _ rfl h
  · split at h
    · exact hclose _ rfl h
    · split at h
      · split at h
        · simp only [Except.ok.injEq, Prod.mk.injEq] at h
          obtain ⟨hq, _⟩ := h
          subst hq
          exact hc
        · split at h <;>
          · simp only [Except.ok.injEq, Prod.mk.injEq] at h
            obtain ⟨hq, _⟩ := h
            subst hq
            exact hlog _ (by simp) (by simp) (by simp)
      · split at h
        · split at h
          · simp only [Except.ok.injEq, Prod.mk.injEq] at h
            obtain ⟨hq, _⟩ := h
            subst hq
            exact hc
          · split at h <;>
            · simp only [Except.ok.injEq, Prod.mk.injEq] at h
              obtain ⟨hq, _⟩ := h
              subst hq
              exact hlog _ (by simp) (by simp) (by simp)
        · split at h
          · split at h
            · simp only [Except.ok.injEq, Prod.mk.injEq] at h
              obtain ⟨hq, _⟩ := h
              subst hq
              exact hc
            · split at h
              · simp only [Except.ok.injEq, Prod.mk.injEq] at h
                obtain ⟨hq, _⟩ := h
                subst hq
                exact hlog _ (by simp) (by simp) (by simp)
              · split at h
                · simp only [Except.ok.injEq, Prod.mk.injEq] at h
                  obtain ⟨hq, _⟩ := h
                  subst hq
                  exact hlog _ (by simp) (by simp) (by simp)
                · simp only [Except.ok.injEq, Prod.mk.injEq] at h
                  obtain ⟨hq, _⟩ := h
                  subst hq
                  exact hc
          · simp only [Except.ok.injEq, Prod.mk.injEq] at h
            obtain ⟨hq, _⟩ := h
            subst hq
            exact hc

/-- C8: for every peer session (in a state a session can be in, see
`peerServer.consistent`) and every number `n ≥ 1` of `close()` calls in a row,
all the calls succeed and afterwards `closed` is set, `closedCh` has been
closed exactly once and `room.disconnectUser(userId)`, `pc.Close` and
`ws.Close` have each been called exactly once; on a session that was open the
calls change nothing else than the flag, the latch and the three calls added
to the log, and on a session already closed they change nothing at all, as
does any further `close()`. -/
theorem close_idempotent (ps : peerServer) (n : Nat) (hn : 1 ≤ n) (hc : ps.consistent) :
    ∃ ps' : peerServer,
      ps.closeTimes n = Except.ok ps' ∧
      ps'.closed = true ∧
      ps'.closedCh.closes = 1 ∧
      ps'.calls.count (PeerCall.roomDisconnectUser ps.userId) = 1 ∧
      ps'.calls.count PeerCall.pcClose = 1 ∧
      ps'.calls.count PeerCall.wsClose = 1 ∧
      (ps.closed = false →
        ps' = { ps with
                closed := true
                closedCh := ⟨1⟩
                calls := ps.calls ++
                  [PeerCall.roomDisconnectUser ps.userId, PeerCall.pcClose, PeerCall.wsClose] }) ∧
      (ps.closed = true → ps' = ps) ∧
      ps'.close = Except.ok ps' := by
  obtain ⟨m, rfl⟩ : ∃ m, n = m + 1 := ⟨n - 1, by omega⟩
  cases hcl : ps.closed with
  | true =>
    have hc' := hc
    simp only [peerServer.consistent, hcl, if_true] at hc'
    exact ⟨ps, closeTimes_of_closed ps hcl _, hcl, hc'.1, hc'.2.1, hc'.2.2.1, hc'.2.2.2,
      fun h => by simp at h, fun _ => rfl, close_of_closed ps hcl⟩
  | false =>
    have hc' := hc
    simp only [peerServer.consistent, hcl, Bool.false_eq_true, if_false] at hc'
    have h1 := close_open ps hcl hc'.1
    refine ⟨_, ?_, rfl, rfl, ?_, ?_, ?_, fun _ => rfl, fun h => by simp at h,
      close_of_closed _ rfl⟩
    · simp only [peerServer.closeTimes, h1]
      exact closeTimes_of_closed _ rfl m
    · simp [List.count_append, hc'.2.1]
    · simp [List.count_append, hc'.2.2.1]
    · simp [List.count_append, hc'.2.2.2]

/-- Witness of C8: three `close()` calls on a new session. -/
theorem close_idempotent_witness :
    ∃ ps' : peerServer,
      (newPeerServer "u1").closeTimes 3 = Except.ok ps' ∧
      ps'.closed = true ∧
      ps'.closedCh.closes = 1 ∧
      ps'.calls =
        [PeerCall.roomConnectPeerServer, PeerCall.pcConnectPeerServer,
         PeerCall.roomDisconnectUser "u1", PeerCall.pcClose, PeerCall.wsClose] := by
  obtain ⟨ps', h1, h2, h3, _, _, _, h7, _, _⟩ :=
    close_idempotent (newPeerServer "u1") 3 (by decide) (newPeerServer_consistent "u1")
  exact ⟨ps', h1, h2, h3, by rw [h7 rfl]; rfl⟩

/-- C9 (evaluation of the code): on a new session, an `answer` frame whose
payload does not decode, an `answer` rejected by `SetRemoteDescription`, a
`candidate` frame whose payload does not decode and a candidate rejected by
`AddICECandidate` each make `loop` return with the session not closed: the
`closed` flag unset, `closedCh` open and no `room.disconnectUser` call. A
failed read, in contrast, makes `loop` return with the session closed. -/
theorem loop_negotiation_error_no_close :
    (newPeerServer "u1").loop sampleDecoders
        [{ roomEnded := false, read := Except.ok ⟨"answer", ""⟩, pcErr := none }] =
      Except.ok (newPeerServer "u1", true) ∧
    (newPeerServer "u1").loop sampleDecoders
        [{ roomEnded := false, read := Except.ok ⟨"answer", "sdp"⟩, pcErr := some "rejected" }] =
      Except.ok
        ({ newPeerServer "u1" with
           calls := (newPeerServer "u1").calls ++ [PeerCall.pcSetRemoteDescription ⟨"sdp"⟩] },
         true) ∧
    (newPeerServer "u1").loop sampleDecoders
        [{ roomEnded := false, read := Except.ok ⟨"candidate", ""⟩, pcErr := none }] =
      Except.ok (newPeerServer "u1", true) ∧
    (newPeerServer "u1").loop sampleDecoders
        [{ roomEnded := false, read := Except.ok ⟨"candidate", "ice"⟩, pcErr := some "rejected" }] =
      Except.ok
        ({ newPeerServer "u1" with
           calls := (newPeerServer "u1").calls ++ [PeerCall.pcAddICECandidate ⟨"ice"⟩] },
         true) ∧
    (newPeerServer "u1").loop sampleDecoders
        [{ roomEnded := false, read := Except.error "EOF", pcErr := none }] =
      Except.ok
        ({ newPeerServer "u1" with
           closed := true
           closedCh := ⟨1⟩
           calls := (newPeerServer "u1").calls ++
             [PeerCall.roomDisconnectUser "u1", PeerCall.pcClose, PeerCall.wsClose] },
         true) := by
  refine ⟨?_, ?_, ?_, ?_, ?_⟩ <;> rfl

/-- C10: for every frame read successfully whose kind is none of `candidate`,
`answer`, `control` (a second `join` for instance), the iteration of the loop
leaves the peer session unchanged (hence makes no call to the peer connection
or to a track and does not close the session) and does not return: the loop
goes on with the next frame. -/
theorem loop_ignores_unknown_kind (d : Decoders) (ps : peerServer) (m : messageIn)
    (pcErr : Option String) (rest : List LoopInput)
    (h1 : m.Kind ≠ "candidate") (h2 : m.Kind ≠ "answer") (h3 : m.Kind ≠ "control") :
    ps.loopIteration d { roomEnded := false, read := Except.ok m, pcErr := pcErr } =
      Except.ok (ps, false) ∧
    ps.loop d ({ roomEnded := false, read := Except.ok m, pcErr := pcErr } :: rest) =
      ps.loop d rest := by
  have h : ps.loopIteration d { roomEnded := false, read := Except.ok m, pcErr := pcErr } =
      Except.ok (ps, false) := by
    simp [peerServer.loopIteration, h1, h2, h3]
  exact ⟨h, by simp only [peerServer.loop, h]⟩

/-- Witness of C10: a second `join` frame. -/
theorem loop_ignores_unknown_kind_witness :
    (newPeerServer "u1").loopIteration sampleDecoders
        { roomEnded := false, read := Except.ok ⟨"join", "again"⟩, pcErr := none } =
      Except.ok (newPeerServer "u1", false) :=
  (loop_ignores_unknown_kind sampleDecoders (newPeerServer "u1") ⟨"join", "again"⟩ none []
    (by decide) (by decide) (by decide)).1

/-! ## Startup of a peer server -/

/-- C11: when reading or validating the first `join` frame fails,
`RunPeerServer` sends the single frame `error-join`; when `joinRoom` fails with
reason `r` it sends the single frame `"error-" ++ r`; in both cases it makes no
`newPeerConn` and no `newPeerServer` call (which is where the session registers
with the room), never enters the message loop, creates no session, and returns
with the websocket closed by the deferred `ws.Close()`. -/
theorem RunPeerServer_startup_failures (d : Decoders) (origin : String) (inp : StartupInput) :
    (∀ e : String, inp.readJoin = Except.error e →
      RunPeerServer d origin inp =
        Except.ok
          { calls := [ServerCall.readJoin origin, ServerCall.send "error-join", ServerCall.Close]
            session := none }) ∧
    (∀ (join : JoinPayload) (r : String),
      inp.readJoin = Except.ok join → inp.joinRoom = Except.error r →
      RunPeerServer d origin inp =
        Except.ok
          { calls := [ServerCall.readJoin origin, ServerCall.setUserId join.UserId,
                      ServerCall.joinRoom join, ServerCall.send ("error-" ++ r),
                      ServerCall.Close]
            session := none }) := by
  constructor
  · intro e h
    simp [RunPeerServer, h]
  · intro join r h1 h2
    simp [RunPeerServer, h1, h2]

/-- Witness of C11: a third client joining a full room of two. -/
theorem RunPeerServer_startup_failures_witness :
    RunPeerServer sampleDecoders "https://example.org"
        { readJoin := Except.ok sampleJoin, joinRoom := Except.error "room-full",
          newPeerConn := Except.ok (), frames := [] } =
      Except.ok
        { calls := [ServerCall.readJoin "https://example.org", ServerCall.setUserId "u1",
                    ServerCall.joinRoom sampleJoin, ServerCall.send "error-room-full",
                    ServerCall.Close]
          session := none } :=
  (RunPeerServer_startup_failures sampleDecoders "https://example.org"
    { readJoin := Except.ok sampleJoin, joinRoom := Except.error "room-full",
      newPeerConn := Except.ok (), frames := [] }).2 sampleJoin "room-full" rfl rfl

/-! ## Telemetry -/

theorem statsTick_of_whole_seconds (s : mixerSlice) (tickTime : Int)
    (h : wholeSeconds (timeSub tickTime s.lastStats) ≠ 0) :
    s.statsTick tickTime =
      Except.ok
        { s with
          inputBitrate :=
            wrapInt64 (Int.tdiv s.inputBits (wholeSeconds (timeSub tickTime s.lastStats)))
          outputBitrate :=
            wrapInt64 (Int.tdiv s.outputBits (wholeSeconds (timeSub tickTime s.lastStats)))
          inputBits := 0
          outputBits := 0
          lastStats := tickTime } := by
  simp [mixerSlice.statsTick, divInt64, h]

/-- C13 (evaluation of the code): a slice that accumulated 2 999 000 bits in
each direction over an interval of 2.999 s, 1 000 000 bit/s, has 1 499 500
stored as both bitrates by the stats tick, which divides by the 2 whole seconds
of the interval; and a stats tick 0.5 s after `lastStats` fails with an integer
division by zero. -/
theorem statsTick_truncates_interval :
    (busySlice.statsTick 2999000000).toOption.map
        (fun s => (s.inputBitrate, s.outputBitrate, s.inputBits, s.outputBits, s.lastStats)) =
      some (1499500, 1499500, 0, 0, 2999000000) ∧
    busySlice.statsTick 500000000 = Except.error Panic.integerDivideByZero := by
  constructor
  · decide
  · rfl

/-! ## Recording files -/

/-- C12: `allFiles` is `[fileName(in)]` without effects and
`[fileName(in), fileName(fx)]`, in this order, with effects; `fileName` is
`namespace + "/" + prefix + "-" + kind + "-" + suffix + ext` with `ext` `.ogg`
for the kind `audio` and `.mkv` otherwise; the prefix of `filePrefixWithCount`
is the timestamp followed by `-r-`, the room id, `-u-`, the user id, `-c-` and
the decimal joined count, so that the full name reads
`<namespace>/<timestamp>-r-<roomId>-u-<userId>-c-<count>-<kind>-<suffix><ext>`;
and the `Files` of a pipeline made by `CreatePipeline` are `allFiles` of its
namespace, prefix and kind, with effects when `fx` is not empty. -/
theorem recording_file_names (nameSpace pfx kind now : String) (join : JoinPayload)
    (count : Int) :
    gst.allFiles nameSpace pfx kind false = [gst.fileName nameSpace pfx kind "in"] ∧
    gst.allFiles nameSpace pfx kind true =
      [gst.fileName nameSpace pfx kind "in", gst.fileName nameSpace pfx kind "fx"] ∧
    (∀ suffix : String,
      gst.fileName nameSpace pfx "audio" suffix =
        nameSpace ++ "/" ++ pfx ++ "-" ++ "audio" ++ "-" ++ suffix ++ ".ogg") ∧
    (∀ suffix : String, kind ≠ "audio" →
      gst.fileName nameSpace pfx kind suffix =
        nameSpace ++ "/" ++ pfx ++ "-" ++ kind ++ "-" ++ suffix ++ ".mkv") ∧
    filePrefixWithCount now join count =
      now ++ "-r-" ++ join.RoomId ++ "-u-" ++ join.UserId ++ "-c-" ++ toString count ∧
    (∀ suffix : String,
      gst.fileName nameSpace (filePrefixWithCount now join count) kind suffix =
        nameSpace ++ "/" ++ now ++ "-r-" ++ join.RoomId ++ "-u-" ++ join.UserId ++ "-c-" ++
          toString count ++ "-" ++ kind ++ "-" ++ suffix ++
          (if kind = "audio" then ".ogg" else ".mkv")) ∧
    (∀ (cfg : gst.Config) (pipelineIndex index' : List (String × gst.Pipeline))
        (pipeline : gst.Pipeline) (roomId userId track codec fx : String)
        (width height frameRate : Int) (gpu : Bool),
      gst.CreatePipeline cfg pipelineIndex roomId userId track nameSpace pfx kind codec
          width height frameRate fx gpu = Except.ok (index', pipeline) →
      pipeline.Files = gst.allFiles nameSpace pfx kind (decide (fx ≠ ""))) := by
  refine ⟨rfl, rfl, fun _ => rfl, ?_, rfl, ?_, ?_⟩
  · intro suffix hk
    simp [gst.fileName, hk]
  · intro suffix
    simp only [gst.fileName, filePrefixWithCount, String.append_assoc]
  · intro cfg pipelineIndex index' pipeline roomId userId track codec fx width height
      frameRate gpu h
    have hfx : decide (fx.length > 0) = decide (fx ≠ "") := by
      have : fx.length > 0 ↔ fx ≠ "" := by
        constructor
        · intro h1 h2
          subst h2
          simp at h1
        · intro h1
          refine Nat.pos_of_ne_zero (fun h0 => h1 ?_)
          have hd : fx.data = [] := List.length_eq_zero.mp h0
          exact String.ext hd
      simp only [this]
    unfold gst.CreatePipeline at h
    split at h
    · simp at h
    · simp only [Except.ok.injEq, Prod.mk.injEq] at h
      rw [← h.2, hfx]

/-- Witness of C12: the two files of the second connection of user `u1` to
room `r1`, for video with effects. -/
theorem recording_file_names_witness :
    gst.allFiles "trial" (filePrefixWithCount "20211004-093000.123" sampleJoin 2) "video" true =
      ["trial/20211004-093000.123-r-r1-u-u1-c-2-video-in.mkv",
       "trial/20211004-093000.123-r-r1-u-u1-c-2-video-fx.mkv"] := by
  rw [(recording_file_names "trial" (filePrefixWithCount "20211004-093000.123" sampleJoin 2)
    "video" "" sampleJoin 0).2.1]
  decide

/-! ## Encoder bitrate of a `gst` pipeline -/

theorem wrapInt32_of_inRange (x : Int) (h1 : -(2 ^ 31) ≤ x) (h2 : x < 2 ^ 31) :
    wrapInt32 x = x := by
  unfold wrapInt32
  omega

/-- C14 as stated fails: for the codec VP8 and the rate `2 ^ 31` bit/s the
property `target-bitrate` is set to `-(2 ^ 31)`, the rate as a 32-bit `C.int`,
and not to the rate unchanged. -/
theorem SetEncodingRate_C_int_overflow :
    ((samplePipeline "VP8" false).SetEncodingRate 2147483648).cCalls =
      [gst.CCall.gstreamer_set_property_int "encoder" "target-bitrate" (-2147483648)] := by
  decide

/-- C14 amended: whenever the values handed over fit the 32-bit `C.int` in
which a property is set, a call of `SetEncodingRate` with the rate `v` sets, on
the element `encoder`: for H264 (and `v < 2 ^ 63`), `max-bitrate` to
`(v / 1000) * 320 / 256` when the `gpu` flag is set, and then `bitrate` to
`v / 1000`; for VP8, `target-bitrate` to `v`; for any other codec, `bitrate` to
`v`; and nothing else, so that exactly one of `bitrate` and `target-bitrate` is
set. The values fit for every `v < 2 ^ 31`. -/
theorem SetEncodingRate_units (p : gst.Pipeline) (v : Nat) :
    (p.codec = "H264" → p.gpu = true → v < 2 ^ 63 → v / 1000 * 320 / 256 < 2 ^ 31 →
      (p.SetEncodingRate v).cCalls =
        p.cCalls ++
          [gst.CCall.gstreamer_set_property_int "encoder" "max-bitrate"
             ((v / 1000 * 320 / 256 : Nat) : Int),
           gst.CCall.gstreamer_set_property_int "encoder" "bitrate" ((v / 1000 : Nat) : Int)]) ∧
    (p.codec = "H264" → p.gpu = false → v < 2 ^ 63 → v / 1000 < 2 ^ 31 →
      (p.SetEncodingRate v).cCalls =
        p.cCalls ++
          [gst.CCall.gstreamer_set_property_int "encoder" "bitrate" ((v / 1000 : Nat) : Int)]) ∧
    (p.codec = "VP8" → v < 2 ^ 31 →
      (p.SetEncodingRate v).cCalls =
        p.cCalls ++ [gst.CCall.gstreamer_set_property_int "encoder" "target-bitrate" (v : Int)]) ∧
    (p.codec ≠ "VP8" → p.codec ≠ "H264" → v < 2 ^ 31 →
      (p.SetEncodingRate v).cCalls =
        p.cCalls ++ [gst.CCall.gstreamer_set_property_int "encoder" "bitrate" (v : Int)]) ∧
    (v < 2 ^ 31 → v / 1000 * 320 / 256 < 2 ^ 31 ∧ v / 1000 < 2 ^ 31 ∧ v < 2 ^ 63) := by
  have h0 : (0 : Int) ≤ (v : Int) := Int.ofNat_nonneg v
  have hdiv : Int.tdiv (v : Int) 1000 = ((v / 1000 : Nat) : Int) := by
    rw [Int.tdiv_eq_ediv h0 (by decide)]
    simp
  have hk0 : (0 : Int) ≤ ((v / 1000 : Nat) : Int) := Int.ofNat_nonneg _
  have hmax : Int.tdiv ((v / 1000 * 320 : Nat) : Int) 256 =
      ((v / 1000 * 320 / 256 : Nat) : Int) := by
    rw [Int.tdiv_eq_ediv (Int.ofNat_nonneg _) (by decide)]
    simp
  have hw63 : v < 2 ^ 63 → wrapInt64 (v : Int) = (v : Int) := by
    intro hv
    have hv' : (v : Int) < 2 ^ 63 := by exact_mod_cast hv
    exact wrapInt64_of_inRange _ (by omega) hv'
  have hwk : v < 2 ^ 63 → wrapInt64 ((v / 1000 : Nat) : Int) = ((v / 1000 : Nat) : Int) := by
    intro hv
    exact wrapInt64_of_inRange _ (by omega) (by omega)
  refine ⟨?_, ?_, ?_, ?_, ?_⟩
  · intro hc hg hv hfit
    have hmul : wrapInt64 (((v / 1000 : Nat) : Int) * 320) = ((v / 1000 * 320 : Nat) : Int) := by
      rw [wrapInt64_of_inRange _ (by omega) (by omega)]
      simp
    have hwmax : wrapInt64 ((v / 1000 * 320 / 256 : Nat) : Int) =
        ((v / 1000 * 320 / 256 : Nat) : Int) :=
      wrapInt64_of_inRange _ (by omega) (by omega)
    have h32a : wrapInt32 ((v / 1000 * 320 / 256 : Nat) : Int) =
        ((v / 1000 * 320 / 256 : Nat) : Int) :=
      wrapInt32_of_inRange _ (by omega) (by omega)
    have h32b : wrapInt32 ((v / 1000 : Nat) : Int) = ((v / 1000 : Nat) : Int) :=
      wrapInt32_of_inRange _ (by omega) (by omega)
    simp only [gst.Pipeline.SetEncodingRate, hc, hg, if_true, gst.Pipeline.setPropertyInt,
      hw63 hv, hdiv, hwk hv, hmul, hmax, hwmax, h32a, h32b, List.append_assoc,
      List.singleton_append]
    rw [if_neg (by decide)]
  · intro hc hg hv hfit
    have h32b : wrapInt32 ((v / 1000 : Nat) : Int) = ((v / 1000 : Nat) : Int) :=
      wrapInt32_of_inRange _ (by omega) (by omega)
    simp only [gst.Pipeline.SetEncodingRate, hc, hg, gst.Pipeline.setPropertyInt,
      hw63 hv, hdiv, hwk hv, h32b]
    simp
  · intro hc hv
    have h32 : wrapInt32 (v : Int) = (v : Int) := wrapInt32_of_inRange _ (by omega) (by omega)
    simp only [gst.Pipeline.SetEncodingRate, hc, if_true, gst.Pipeline.setPropertyInt,
      hw63 (by omega), h32]
  · intro h1 h2 hv
    have h32 : wrapInt32 (v : Int) = (v : Int) := wrapInt32_of_inRange _ (by omega) (by omega)
    simp only [gst.Pipeline.SetEncodingRate, h1, h2, if_false, gst.Pipeline.setPropertyInt,
      hw63 (by omega), h32]
  · intro hv
    omega

/-- Witness of C14 amended: 300 kbit/s on a GPU H264 pipeline. -/
theorem SetEncodingRate_units_witness :
    ((samplePipeline "H264" true).SetEncodingRate 300000).cCalls =
      [gst.CCall.gstreamer_set_property_int "encoder" "max-bitrate" 375,
       gst.CCall.gstreamer_set_property_int "encoder" "bitrate" 300] :=
  (SetEncodingRate_units (samplePipeline "H264" true) 300000).1 rfl rfl (by decide) (by decide)

/-! ## Effect element naming -/

theorem replaceFuel_zero_count (old new : List Char) (fuel : Nat) (s : List Char) :
    strings.replaceFuel old new fuel 0 s = s := by
  cases fuel <;> simp [strings.replaceFuel]

theorem replaceFuel_first (old new pre post : List Char) (fuel : Nat)
    (hfuel : pre.length < fuel)
    (hfirst : ∀ k, k < pre.length → old.isPrefixOf ((pre ++ old ++ post).drop k) = false) :
    strings.replaceFuel old new fuel 1 (pre ++ old ++ post) = pre ++ new ++ post := by
  induction pre generalizing fuel with
  | nil =>
    obtain ⟨f, rfl⟩ : ∃ f, fuel = f + 1 := ⟨fuel - 1, by simp at hfuel; omega⟩
    have hp : old.isPrefixOf (old ++ post) = true := by
      rw [List.isPrefixOf_iff_prefix]
      exact List.prefix_append old post
    simp [strings.replaceFuel, hp, replaceFuel_zero_count]
  | cons c cs ih =>
    obtain ⟨f, rfl⟩ : ∃ f, fuel = f + 1 := ⟨fuel - 1, by simp at hfuel; omega⟩
    have h0 := hfirst 0 (by simp)
    simp only [List.drop_zero, List.cons_append] at h0
    have ih' := ih f (by simpa using hfuel) (fun k hk => by
      have := hfirst (k + 1) (by simpa using hk)
      simpa using this)
    have h1 : ¬ ((1 : Int) = 0) := by decide
    simp only [List.cons_append, strings.replaceFuel, h1, h0, ih', if_false,
      Bool.false_eq_true]

theorem Replace_first (old new pre post : String) (hfirst : firstOccurrence old pre post) :
    strings.Replace (pre ++ old ++ post) old new 1 = pre ++ new ++ post := by
  apply String.ext
  simp only [strings.Replace, String.data_append]
  exact replaceFuel_first old.data new.data pre.data post.data _
    (by simp; omega) hfirst

/-- C15 (evaluation of the code): for the codec opus, whose template holds the
effect placeholder, the `fx` prefix reaches only the first `name=` of the
descriptor. A descriptor that declares the element names `a` and `b` gives a
pipeline text with `name=fxa` and `name=b`: `name=fxb` does not occur in it,
while `SetFxProperty("b", ...)` addresses the element `fxb`. A second element
named `src` keeps the name `src`, the clash the prefix is there to avoid. And
when the first `name=` of the descriptor is the end of another property
(`client-name=c`), the declared name `a` is not prefixed at all. -/
theorem newPipelineStr_second_name_kept :
    (gst.newPipelineStr sampleConfig "trial" "rec" "audio" "opus" 0 0 0
        "pitch name=a ! audioecho name=b" false).toOption =
      some "appsrc ! opusdec ! pitch name=fxa ! audioecho name=b ! opusenc ! appsink" ∧
    occursIn "name=b" "pitch name=a ! audioecho name=b" = true ∧
    occursIn "name=fxb"
      "appsrc ! opusdec ! pitch name=fxa ! audioecho name=b ! opusenc ! appsink" = false ∧
    ((samplePipeline "opus" false).SetFxProperty "b" "delay" ⟨1⟩).cCalls =
      [gst.CCall.gstreamer_set_property_float "fxb" "delay" ⟨1⟩] ∧
    (gst.newPipelineStr sampleConfig "trial" "rec" "audio" "opus" 0 0 0
        "pitch name=a ! audioecho name=src" false).toOption =
      some "appsrc ! opusdec ! pitch name=fxa ! audioecho name=src ! opusenc ! appsink" ∧
    (gst.newPipelineStr sampleConfig "trial" "rec" "audio" "opus" 0 0 0
        "pulsesink client-name=c name=a" false).toOption =
      some "appsrc ! opusdec ! pulsesink client-name=fxc name=a ! opusenc ! appsink" ∧
    occursIn "name=fxa"
      "appsrc ! opusdec ! pulsesink client-name=fxc name=a ! opusenc ! appsink" = false ∧
    ((samplePipeline "opus" false).GetFxProperty "a" "volume" ⟨0⟩).2.cCalls =
      [gst.CCall.gstreamer_get_property_float "fxa" "volume"] := by
  refine ⟨?_, ?_, ?_, ?_, ?_, ?_, ?_, ?_⟩ <;> decide

/-! ## Sample callback -/

theorem goNewSampleCallback_cases (pipelineIndex : List (String × gst.Pipeline)) (id : String)
    (buffer : List UInt8) (writeErr : Option String) :
    (mapGet pipelineIndex id = none →
      gst.goNewSampleCallback pipelineIndex id buffer writeErr =
        Except.error Panic.nilDereference) ∧
    (∀ pipeline : gst.Pipeline, mapGet pipelineIndex id = some pipeline →
      gst.goNewSampleCallback pipelineIndex id buffer writeErr =
        Except.ok [(pipeline.track, buffer)]) := by
  constructor
  · intro h
    simp [gst.goNewSampleCallback, h]
  · intro pipeline h
    simp [gst.goNewSampleCallback, h]

/-- C16 (evaluation of the code): once `goStopCallback` has removed the entry
of track `t1` from `pipelineIndex`, `goNewSampleCallback` for `t1` does not
discard the buffer quietly: it fails with a nil dereference, reading
`pipeline.roomId` through the missing pipeline for its log line (and so it is
for an index that never had the entry). With the entry present the buffer is
written to the track of that pipeline, and to no other. -/
theorem goNewSampleCallback_unknown_id_fails :
    gst.goStopCallback [("t1", samplePipeline "opus" false)] "t1" = [] ∧
    gst.goNewSampleCallback (gst.goStopCallback [("t1", samplePipeline "opus" false)] "t1")
        "t1" [1, 2, 3] none =
      Except.error Panic.nilDereference ∧
    gst.goNewSampleCallback [] "t1" [1, 2, 3] none = Except.error Panic.nilDereference ∧
    gst.goNewSampleCallback [("t1", samplePipeline "opus" false)] "t1" [1, 2, 3] none =
      Except.ok [("t1", [1, 2, 3])] := by
  refine ⟨?_, ?_, ?_, ?_⟩ <;> rfl

/-! ## Routing and keys of effect control -/

/-- C17 (evaluation of the code): on a session that publishes video only, a
`control` frame whose payload has the kind `audio` is handed to the video
track's `controlFx`; and `controlFx` of a video slice, given that payload, sets
the property on the video pipeline. -/
theorem control_audio_payload_reaches_video :
    videoOnlySession.audioTrack = none ∧
    pitchJump.Kind = "audio" ∧
    videoOnlySession.loopIteration sampleDecoders
        { roomEnded := false, read := Except.ok ⟨"control", "pitch-jump"⟩, pcErr := none } =
      Except.ok
        ({ videoOnlySession with
           calls := videoOnlySession.calls ++ [PeerCall.videoTrackControlFx pitchJump] },
         false) ∧
    (blankSlice "video" (some freshPipeline) 0).controlFx pitchJump =
      Except.ok
        ({ blankSlice "video" (some freshPipeline) 0 with
           pipeline := some (freshPipeline.SetFxProp "video" "shift" "pitch" ⟨7⟩) },
         none) := by
  refine ⟨?_, ?_, ?_, ?_⟩ <;> rfl

/-- C18 (evaluation of the code): the payloads for property `c` of effect `ab`
and for property `bc` of effect `a`, both of kind `audio`, differ in name and
in property and get the same key `audioabc`; a ramp requested for the second
stops the ramp that is running for the first. -/
theorem interpolatorId_collision :
    rampAbC.Kind ++ rampAbC.Name ++ rampAbC.Property =
      rampABc.Kind ++ rampABc.Name ++ rampABc.Property ∧
    rampAbC.Kind = rampABc.Kind ∧
    rampAbC.Name ≠ rampABc.Name ∧
    rampAbC.Property ≠ rampABc.Property ∧
    (freshRun.run [ControlEvent.request rampAbC]).map
        (fun r => (r.slice.interpolators.map (fun i => i.live),
                   r.calls.map (fun call => (call.payload.Name, call.payload.Property)))) =
      some ([true], [("ab", "c")]) ∧
    (freshRun.run [ControlEvent.request rampAbC, ControlEvent.request rampABc]).map
        (fun r => (r.slice.interpolators.map (fun i => i.live),
                   r.calls.map (fun call => (call.payload.Name, call.payload.Property)))) =
      some ([false, true], [("ab", "c"), ("a", "bc")]) := by
  refine ⟨?_, ?_, ?_, ?_, ?_, ?_⟩ <;> decide

end Ducksoup
